import Mathlib

/-!
# Adaptive traffic-light algorithm: embedding and verification

Shallow embedding of `adaptive-traffic-light-algorithm.cpp` (class `TrafficLight`).

Conventions of the embedding:

* `int` is the 32-bit two's-complement integer of the mainstream ABIs.  A value of
  type `int` is an `Int` in `[INT_MIN, INT_MAX]`; the result of `+=` is reduced with
  `wrapInt` (signed overflow is undefined in C++; the wrap is what the generated
  machine addition does).
* `double` is IEEE 754 binary64.  A finite double is the rational number it denotes,
  and every arithmetic operation of the program is the exact operation on rationals
  followed by a rounding `fl : ℚ → ℚ`, which the functions that compute with doubles
  take as their first argument.  The program is the instance `fl = binary64`
  (round to nearest, ties to even, 53-bit significand); the instance
  `fl = exactArith` (no rounding) is the exact reading that some statements are
  about.  Each operation is rounded on its own (no fused multiply-add, no extended
  precision), and the exponent range of binary64 is not modelled: the numbers the
  program forms from `int` counters stay far inside it.  The stored `green_time` is a `Dbl`,
  which besides the finite values has the two infinities and NaN, because the
  allocation divides by a total that can be zero.
* a method that can `throw` returns the outcome together with the object state
  at the point where it returns or throws.
* `std::sort` is library code: the functions that call it take it as a parameter,
  and theorems assume the contract the C++ standard gives it (`StdSort`).
  `Libstdcxx.sort` is the implementation of GCC's libstdc++ (`bits/stl_algo.h`,
  `bits/stl_heap.h`), used where the order of tied elements matters.
-/

namespace TrafficLightModel

/-! ## Machine integers -/

/-- Smallest value of `int`. -/
def INT_MIN : Int := -2147483648

/-- Largest value of `int`. -/
def INT_MAX : Int := 2147483647

/-- Reduction of a mathematical integer to the `int` range (two's complement). -/
def wrapInt (x : Int) : Int := (x + 2147483648) % 4294967296 - 2147483648

/-- Membership in the `int` range. -/
def isInt (x : Int) : Prop := INT_MIN ≤ x ∧ x ≤ INT_MAX

instance (x : Int) : Decidable (isInt x) := by unfold isInt; infer_instance

/-! ## Rounding of binary64 -/

/-- Nearest integer, a tie going to the even one. -/
def roundHalfEven (t : ℚ) : ℤ :=
  if t - ⌊t⌋ < 1 / 2 then ⌊t⌋
  else if 1 / 2 < t - ⌊t⌋ then ⌊t⌋ + 1
  else if ⌊t⌋ % 2 = 0 then ⌊t⌋ else ⌊t⌋ + 1

/-- Binary exponent of `x >= 1`, found by halving. -/
def expUp : Nat → ℚ → ℤ
  | 0, _ => 0
  | fuel + 1, x => if x < 2 then 0 else expUp fuel (x / 2) + 1

/-- Binary exponent of `0 < x < 2`, found by doubling. -/
def expDown : Nat → ℚ → ℤ
  | 0, _ => 0
  | fuel + 1, x => if 1 ≤ x then 0 else expDown fuel (2 * x) - 1

/-- Binary exponent of `x > 0`: the `e` with `2 ^ e <= x < 2 ^ (e + 1)`. -/
def exponent (x : ℚ) : ℤ :=
  if 1 ≤ x then expUp x.num.natAbs x else expDown x.den x

/-- Rounding of `x > 0` to 53 significant bits. -/
def roundPos (x : ℚ) : ℚ :=
  (roundHalfEven (x / 2 ^ (exponent x - 52)) : ℚ) * 2 ^ (exponent x - 52)

/-- Rounding of a real result to binary64: to nearest, ties to even. -/
def binary64 (x : ℚ) : ℚ :=
  if x = 0 then 0 else if x < 0 then -roundPos (-x) else roundPos x

/-- The exact reading of the arithmetic: no rounding. -/
def exactArith (x : ℚ) : ℚ := x

/-- Properties of a rounding used in the proofs: it is monotone, leaves its own
results unchanged, and leaves 0, 1 and 60 unchanged. -/
structure Rounding (fl : ℚ → ℚ) : Prop where
  mono : Monotone fl
  idem : ∀ x, fl (fl x) = fl x
  zero : fl 0 = 0
  one : fl 1 = 1
  sixty : fl 60 = 60

/-! ## Doubles -/

/-- Value of a `double`: a finite number, an infinity (`inf true` is the negative
one) or NaN. -/
inductive Dbl where
  | fin (q : ℚ)
  | inf (neg : Bool)
  | nan
  deriving DecidableEq

namespace Dbl

/-- Sign bit of a finite number; a zero is `+0.0`, the only zero the program
divides by (sums start at `0.0` and an `int` converts to `+0.0`). -/
def signBit (q : ℚ) : Bool := decide (q < 0)

/-- IEEE 754 division. -/
def div (fl : ℚ → ℚ) : Dbl → Dbl → Dbl
  | nan, _ => nan
  | _, nan => nan
  | inf _, inf _ => nan
  | inf s, fin b => inf (xor s (signBit b))
  | fin _, inf _ => fin 0
  | fin a, fin b =>
    if b = 0 then (if a = 0 then nan else inf (signBit a))
    else fin (fl (a / b))

/-- IEEE 754 multiplication. -/
def mul (fl : ℚ → ℚ) : Dbl → Dbl → Dbl
  | nan, _ => nan
  | _, nan => nan
  | inf s, inf t => inf (xor s t)
  | inf s, fin b => if b = 0 then nan else inf (xor s (signBit b))
  | fin a, inf t => if a = 0 then nan else inf (xor (signBit a) t)
  | fin a, fin b => fin (fl (a * b))

/-- IEEE 754 addition. -/
def add (fl : ℚ → ℚ) : Dbl → Dbl → Dbl
  | nan, _ => nan
  | _, nan => nan
  | inf s, inf t => if s = t then inf s else nan
  | inf s, fin _ => inf s
  | fin _, inf t => inf t
  | fin a, fin b => fin (fl (a + b))

/-- Predicate `std::isnan`. -/
def isNaN : Dbl → Bool
  | nan => true
  | _ => false

/-- IEEE 754 comparison `a <= b`: false as soon as one side is NaN. -/
def le : Dbl → Dbl → Bool
  | nan, _ => false
  | _, nan => false
  | inf s, inf t => s || !t
  | inf s, fin _ => s
  | fin _, inf t => !t
  | fin a, fin b => decide (a ≤ b)

end Dbl

/-! ## Constants -/

/-- Total green time shared out in one cycle: `constexpr double MAX_GREEN_TIME = 60.0`;
60 is a binary64 number. -/
def MAX_GREEN_TIME : ℚ := 60

/-- Weight of a queued vehicle: `constexpr double VEHICLE_WEIGHT = 0.7`, the double
nearest to 7/10. -/
def VEHICLE_WEIGHT (fl : ℚ → ℚ) : ℚ := fl (7 / 10)

/-- Weight of a queued pedestrian: `constexpr double PEDESTRIAN_WEIGHT = 0.3`, the
double nearest to 3/10. -/
def PEDESTRIAN_WEIGHT (fl : ℚ → ℚ) : ℚ := fl (3 / 10)

/-! ## The class `TrafficLight` -/

/-- Private fields of `TrafficLight`. -/
structure TrafficLight where
  id : Int
  vehicle_queue : Int
  pedestrian_queue : Int
  green_time : Dbl
  deriving DecidableEq

/-- Exceptions the class throws; `what` is the message. -/
inductive Exception where
  | invalid_argument (what : String)
  deriving DecidableEq

namespace TrafficLight

/-- Constructor `TrafficLight(int id)`. -/
def mk0 (id : Int) : TrafficLight :=
  { id := id, vehicle_queue := 0, pedestrian_queue := 0, green_time := Dbl.fin 0 }

/-- Method `receiveEvent(type, count)`: the outcome and the object afterwards. -/
def receiveEvent (self : TrafficLight) (type : String) (count : Int) :
    Except Exception Unit × TrafficLight :=
  if count < 0 then
    (Except.error (Exception.invalid_argument "Count cannot be negative"), self)
  else if type = "vehicle" then
    (Except.ok (), { self with vehicle_queue := wrapInt (self.vehicle_queue + count) })
  else if type = "pedestrian" then
    (Except.ok (), { self with pedestrian_queue := wrapInt (self.pedestrian_queue + count) })
  else
    (Except.error (Exception.invalid_argument "Invalid event type"), self)

/-- Method `calculatePriority()`: each `int` converts to a double without rounding,
the two products and the sum are rounded. -/
def calculatePriority (fl : ℚ → ℚ) (self : TrafficLight) : ℚ :=
  fl (fl ((self.vehicle_queue : ℚ) * VEHICLE_WEIGHT fl)
    + fl ((self.pedestrian_queue : ℚ) * PEDESTRIAN_WEIGHT fl))

/-- Method `sendEvent()`. -/
def sendEvent (fl : ℚ → ℚ) (self : TrafficLight) : Int × ℚ :=
  (self.id, self.calculatePriority fl)

/-- Method `setGreenTime(time)`. -/
def setGreenTime (self : TrafficLight) (time : Dbl) : TrafficLight :=
  { self with green_time := time }

/-- Method `resetQueues()`. -/
def resetQueues (self : TrafficLight) : TrafficLight :=
  { self with vehicle_queue := 0, pedestrian_queue := 0 }

/-- Method `getId()`. -/
def getId (self : TrafficLight) : Int := self.id

end TrafficLight

/-! ## The library routine `std::sort` -/

/-- Element of `std::vector<std::pair<int, double>>`: an id and a priority. -/
abbrev Entry := Int × ℚ

/-- Requirement the C++ standard puts on a comparator: a strict weak ordering. -/
structure StrictWeakOrdering {α : Type} (comp : α → α → Bool) : Prop where
  irrefl : ∀ a, comp a a = false
  trans : ∀ a b c, comp a b = true → comp b c = true → comp a c = true
  equiv_trans : ∀ a b c, comp a b = false → comp b a = false →
    comp b c = false → comp c b = false → comp a c = false ∧ comp c a = false

/-- Type of an implementation of `std::sort(first, last, comp)` on a vector of
entries, as a function of the comparator and of the contents of the range. -/
abbrev SortFn := (Entry → Entry → Bool) → List Entry → List Entry

/-- Contract of `std::sort`: for a strict weak ordering the range afterwards holds
the same elements and is sorted with respect to `comp`, that is, `comp` is false of
a later element against an earlier one.  The order of equivalent elements is not
part of the contract. -/
structure StdSort (sort : SortFn) : Prop where
  perm : ∀ comp l, StrictWeakOrdering comp → (sort comp l).Perm l
  sorted : ∀ comp l, StrictWeakOrdering comp →
    (sort comp l).Pairwise (fun a b => comp b a = false)

/-- Insertion of `x` into a sorted list in front of the first element that does not
strictly precede it. -/
def insertFront {α : Type} (comp : α → α → Bool) (x : α) : List α → List α
  | [] => [x]
  | y :: ys => if comp y x then y :: insertFront comp x ys else x :: y :: ys

/-- Insertion sort taking the elements from the last to the first. -/
def insertionSort {α : Type} (comp : α → α → Bool) : List α → List α
  | [] => []
  | x :: xs => insertFront comp x (insertionSort comp xs)

/-! ## The `std::sort` of libstdc++

Translation of `std::sort` as GCC's libstdc++ implements it (introsort: median-of-three
quicksort down to ranges of 16 elements, heapsort when the depth limit is reached,
then a final insertion sort).  The range is the whole vector, positions are counted
from 0, and each loop has as fuel a bound on its number of passes. -/

namespace Libstdcxx


/-- Element at position `i` of the range. -/
def elemAt (a : List Entry) (i : Nat) : Entry := a.getD i (0, 0)

/-- Library routine `std::iter_swap(i, j)`. -/
def iter_swap (a : List Entry) (i j : Nat) : List Entry :=
  (a.set i (elemAt a j)).set j (elemAt a i)

/-- Library routine `std::__lg(n)`: position of the highest set bit. -/
def lg : Nat → Nat → Nat
  | 0, _ => 0
  | fuel + 1, n => if n < 2 then 0 else lg fuel (n / 2) + 1

/-- Library routine `__move_median_to_first(result, a, b, c, comp)`. -/
def move_median_to_first (comp : Entry → Entry → Bool) (a : List Entry)
    (result ia ib ic : Nat) : List Entry :=
  if comp (elemAt a ia) (elemAt a ib) then
    if comp (elemAt a ib) (elemAt a ic) then iter_swap a result ib
    else if comp (elemAt a ia) (elemAt a ic) then iter_swap a result ic
    else iter_swap a result ia
  else if comp (elemAt a ia) (elemAt a ic) then iter_swap a result ia
  else if comp (elemAt a ib) (elemAt a ic) then iter_swap a result ic
  else iter_swap a result ib

/-- Loop `while (comp(first, pivot)) ++first;` -/
def scan_up (comp : Entry → Entry → Bool) (a : List Entry) (pivot : Nat) :
    Nat → Nat → Nat
  | 0, first => first
  | fuel + 1, first =>
    if comp (elemAt a first) (elemAt a pivot) then scan_up comp a pivot fuel (first + 1) else first

/-- Loop `while (comp(pivot, last)) --last;` -/
def scan_down (comp : Entry → Entry → Bool) (a : List Entry) (pivot : Nat) :
    Nat → Nat → Nat
  | 0, last => last
  | fuel + 1, last =>
    if comp (elemAt a pivot) (elemAt a last) then scan_down comp a pivot fuel (last - 1) else last

/-- Library routine `__unguarded_partition(first, last, pivot, comp)`: the range afterwards and the
returned position. -/
def unguarded_partition (comp : Entry → Entry → Bool) (pivot : Nat) :
    Nat → List Entry → Nat → Nat → List Entry × Nat
  | 0, a, first, _ => (a, first)
  | fuel + 1, a, first, last =>
    let first1 := scan_up comp a pivot a.length first
    let last1 := scan_down comp a pivot a.length (last - 1)
    if first1 < last1 then
      unguarded_partition comp pivot fuel (iter_swap a first1 last1) (first1 + 1) last1
    else (a, first1)

/-- Library routine `__unguarded_partition_pivot(first, last, comp)`. -/
def unguarded_partition_pivot (comp : Entry → Entry → Bool) (a : List Entry)
    (first last : Nat) : List Entry × Nat :=
  let mid := first + (last - first) / 2
  let a1 := move_median_to_first comp a first (first + 1) mid (last - 1)
  unguarded_partition comp first a1.length a1 (first + 1) last

/-- Library routine `__push_heap(first, holeIndex, topIndex, value, comp)`. -/
def push_heap (comp : Entry → Entry → Bool) (first topIndex : Nat) (value : Entry) :
    Nat → List Entry → Nat → List Entry
  | 0, a, holeIndex => a.set (first + holeIndex) value
  | fuel + 1, a, holeIndex =>
    let parent := (holeIndex - 1) / 2
    if holeIndex > topIndex && comp (elemAt a (first + parent)) value then
      push_heap comp first topIndex value fuel
        (a.set (first + holeIndex) (elemAt a (first + parent))) parent
    else a.set (first + holeIndex) value

/-- First loop of `__adjust_heap`: the hole moves down to a leaf. -/
def sift_down (comp : Entry → Entry → Bool) (first len : Nat) :
    Nat → List Entry → Nat → Nat → List Entry × Nat × Nat
  | 0, a, holeIndex, secondChild => (a, holeIndex, secondChild)
  | fuel + 1, a, holeIndex, secondChild =>
    if secondChild < (len - 1) / 2 then
      let sc := 2 * (secondChild + 1)
      let sc1 := if comp (elemAt a (first + sc)) (elemAt a (first + (sc - 1))) then sc - 1 else sc
      sift_down comp first len fuel (a.set (first + holeIndex) (elemAt a (first + sc1))) sc1 sc1
    else (a, holeIndex, secondChild)

/-- Library routine `__adjust_heap(first, holeIndex, len, value, comp)`. -/
def adjust_heap (comp : Entry → Entry → Bool) (a : List Entry) (first holeIndex len : Nat)
    (value : Entry) : List Entry :=
  let topIndex := holeIndex
  let r := sift_down comp first len len a holeIndex holeIndex
  let a1 := r.1
  let holeIndex1 := r.2.1
  let secondChild1 := r.2.2
  if len % 2 = 0 ∧ secondChild1 = (len - 2) / 2 then
    let sc := 2 * (secondChild1 + 1)
    push_heap comp first topIndex value len
      (a1.set (first + holeIndex1) (elemAt a1 (first + (sc - 1)))) (sc - 1)
  else
    push_heap comp first topIndex value len a1 holeIndex1

/-- Library routine `__pop_heap(first, last, result, comp)`. -/
def pop_heap (comp : Entry → Entry → Bool) (a : List Entry) (first last result : Nat) :
    List Entry :=
  let value := elemAt a result
  let a1 := a.set result (elemAt a first)
  adjust_heap comp a1 first 0 (last - first) value

/-- Loop of `__make_heap`, from `parent` down to 0. -/
def make_heap_loop (comp : Entry → Entry → Bool) (first len : Nat) :
    Nat → List Entry → List Entry
  | 0, a => adjust_heap comp a first 0 len (elemAt a first)
  | parent + 1, a =>
    make_heap_loop comp first len parent
      (adjust_heap comp a first (parent + 1) len (elemAt a (first + (parent + 1))))

/-- Library routine `__make_heap(first, last, comp)`. -/
def make_heap (comp : Entry → Entry → Bool) (a : List Entry) (first last : Nat) : List Entry :=
  if last - first < 2 then a
  else make_heap_loop comp first (last - first) ((last - first - 2) / 2) a

/-- Loop of `__heap_select` over `[i, last)`. -/
def heap_select_loop (comp : Entry → Entry → Bool) (first middle last : Nat) :
    Nat → List Entry → Nat → List Entry
  | 0, a, _ => a
  | fuel + 1, a, i =>
    if i < last then
      if comp (elemAt a i) (elemAt a first) then
        heap_select_loop comp first middle last fuel (pop_heap comp a first middle i) (i + 1)
      else heap_select_loop comp first middle last fuel a (i + 1)
    else a

/-- Library routine `__heap_select(first, middle, last, comp)`. -/
def heap_select (comp : Entry → Entry → Bool) (a : List Entry) (first middle last : Nat) :
    List Entry :=
  heap_select_loop comp first middle last (last - middle) (make_heap comp a first middle) middle

/-- Library routine `__sort_heap(first, last, comp)`. -/
def sort_heap (comp : Entry → Entry → Bool) (first : Nat) : Nat → List Entry → Nat → List Entry
  | 0, a, _ => a
  | fuel + 1, a, last =>
    if last - first > 1 then sort_heap comp first fuel (pop_heap comp a first (last - 1) (last - 1)) (last - 1)
    else a

/-- Library routine `__partial_sort(first, middle, last, comp)`. -/
def partial_sort (comp : Entry → Entry → Bool) (a : List Entry) (first middle last : Nat) :
    List Entry :=
  sort_heap comp first (middle - first) (heap_select comp a first middle last) middle

/-- Library routine `__introsort_loop(first, last, depth_limit, comp)`. -/
def introsort_loop (comp : Entry → Entry → Bool) (first : Nat) :
    Nat → List Entry → Nat → Nat → List Entry
  | 0, a, _, _ => a
  | fuel + 1, a, last, depth_limit =>
    if last - first > 16 then
      if depth_limit = 0 then partial_sort comp a first last last
      else
        let r := unguarded_partition_pivot comp a first last
        let a1 := introsort_loop comp r.2 fuel r.1 last (depth_limit - 1)
        introsort_loop comp first fuel a1 r.2 (depth_limit - 1)
    else a

/-- Loop of `__unguarded_linear_insert`. -/
def linear_insert_loop (comp : Entry → Entry → Bool) (val : Entry) :
    Nat → List Entry → Nat → List Entry
  | 0, a, last => a.set last val
  | fuel + 1, a, last =>
    if comp val (elemAt a (last - 1)) then
      linear_insert_loop comp val fuel (a.set last (elemAt a (last - 1))) (last - 1)
    else a.set last val

/-- Library routine `__unguarded_linear_insert(last, comp)`. -/
def unguarded_linear_insert (comp : Entry → Entry → Bool) (a : List Entry) (last : Nat) :
    List Entry :=
  linear_insert_loop comp (elemAt a last) last a last

/-- Library routine `std::move_backward(first, i, i + 1); *first = val`. -/
def rotate_to_first (a : List Entry) (first i : Nat) : List Entry :=
  a.take first ++ elemAt a i :: ((a.drop first).take (i - first)) ++ a.drop (i + 1)

/-- Loop of `__insertion_sort` over `[i, last)`. -/
def insertion_sort_loop (comp : Entry → Entry → Bool) (first last : Nat) :
    Nat → List Entry → Nat → List Entry
  | 0, a, _ => a
  | fuel + 1, a, i =>
    if i < last then
      if comp (elemAt a i) (elemAt a first) then
        insertion_sort_loop comp first last fuel (rotate_to_first a first i) (i + 1)
      else
        insertion_sort_loop comp first last fuel (unguarded_linear_insert comp a i) (i + 1)
    else a

/-- Library routine `__insertion_sort(first, last, comp)`. -/
def insertion_sort (comp : Entry → Entry → Bool) (a : List Entry) (first last : Nat) :
    List Entry :=
  if first = last then a else insertion_sort_loop comp first last (last - first) a (first + 1)

/-- Library routine `__unguarded_insertion_sort(i, last, comp)`. -/
def unguarded_insertion_sort_loop (comp : Entry → Entry → Bool) (last : Nat) :
    Nat → List Entry → Nat → List Entry
  | 0, a, _ => a
  | fuel + 1, a, i =>
    if i < last then
      unguarded_insertion_sort_loop comp last fuel (unguarded_linear_insert comp a i) (i + 1)
    else a

/-- Library routine `__final_insertion_sort(first, last, comp)`, with `_S_threshold = 16`. -/
def final_insertion_sort (comp : Entry → Entry → Bool) (a : List Entry) (first last : Nat) :
    List Entry :=
  if last - first > 16 then
    unguarded_insertion_sort_loop comp last (last - first)
      (insertion_sort comp a first (first + 16)) (first + 16)
  else insertion_sort comp a first last

/-- Library routine `std::sort(first, last, comp)` of libstdc++ on the whole vector. -/
def sort (comp : Entry → Entry → Bool) (a : List Entry) : List Entry :=
  if a.length = 0 then a
  else
    final_insertion_sort comp
      (introsort_loop comp 0 a.length a a.length (lg a.length a.length * 2)) 0 a.length

end Libstdcxx

/-! ## Ranking and allocation -/

namespace TrafficLight

/-- Comparator lambda of `determinePriority`: `a.second > b.second`. -/
def byPriority (a b : Entry) : Bool := decide (a.2 > b.2)

/-- Static method `determinePriority(traffic_lights)`. -/
def determinePriority (fl : ℚ → ℚ) (sort : SortFn) (traffic_lights : List TrafficLight) :
    List Entry :=
  let priorities := traffic_lights.map (sendEvent fl)
  sort byPriority priorities

/-- Inner loop of `updateLightTimings`: the priority of the first entry with the
given id, `0.0` when there is none. -/
def currentPriority (id : Int) : List Entry → ℚ
  | [] => 0
  | e :: rest => if e.1 = id then e.2 else currentPriority id rest

/-- Static method `updateLightTimings(traffic_lights)`. -/
def updateLightTimings (fl : ℚ → ℚ) (sort : SortFn) (traffic_lights : List TrafficLight) :
    List TrafficLight :=
  let priorities := determinePriority fl sort traffic_lights
  let total_priority := priorities.foldl (fun acc e => fl (acc + e.2)) 0
  traffic_lights.map fun light =>
    let current_priority := currentPriority light.getId priorities
    let green_time :=
      Dbl.mul fl (Dbl.div fl (Dbl.fin current_priority) (Dbl.fin total_priority))
        (Dbl.fin MAX_GREEN_TIME)
    light.setGreenTime green_time

/-- Loop of `receiveAndBroadcastEvents` over the lights that remain, `distr k` being
the `k`-th value drawn from `distr(eng)` in this call (an integer from 0 to 20 in the
program).  An exception thrown by `receiveEvent` leaves the loop. -/
def broadcastFrom (distr : Nat → Int) :
    Nat → List TrafficLight → Except Exception (List TrafficLight)
  | _, [] => Except.ok []
  | k, light :: rest =>
    match light.receiveEvent "vehicle" (distr k) with
    | (Except.error e, _) => Except.error e
    | (Except.ok _, light1) =>
      match light1.receiveEvent "pedestrian" (distr (k + 1)) with
      | (Except.error e, _) => Except.error e
      | (Except.ok _, light2) =>
        match broadcastFrom distr (k + 2) rest with
        | Except.error e => Except.error e
        | Except.ok rest2 => Except.ok (light2 :: rest2)

/-- Static method `receiveAndBroadcastEvents(traffic_lights)`. -/
def receiveAndBroadcastEvents (distr : Nat → Int) (traffic_lights : List TrafficLight) :
    Except Exception (List TrafficLight) :=
  broadcastFrom distr 0 traffic_lights

end TrafficLight

/-! ## The function `main` -/

/-- Collection built at the start of `main`: four lights with ids 0 to 3. -/
def mainInit : List TrafficLight :=
  (List.range 4).map fun i => TrafficLight.mk0 (i : Int)

/-- Collection at the point of `main` where the statuses are logged: after
`receiveAndBroadcastEvents` and `updateLightTimings`. -/
def mainAllocate (fl : ℚ → ℚ) (sort : SortFn) (distr : Nat → Int)
    (traffic_lights : List TrafficLight) : Except Exception (List TrafficLight) :=
  match TrafficLight.receiveAndBroadcastEvents distr traffic_lights with
  | Except.error e => Except.error e
  | Except.ok received => Except.ok (TrafficLight.updateLightTimings fl sort received)

/-- One pass of the `while (true)` loop of `main`, without the logging and the sleep:
events, allocation, reset of the queues. -/
def mainIteration (fl : ℚ → ℚ) (sort : SortFn) (distr : Nat → Int)
    (traffic_lights : List TrafficLight) : Except Exception (List TrafficLight) :=
  match mainAllocate fl sort distr traffic_lights with
  | Except.error e => Except.error e
  | Except.ok allocated => Except.ok (allocated.map TrafficLight.resetQueues)

/-! ## Sequences of calls on a collection -/

/-- A call made on a collection of lights: `traffic_lights[idx].receiveEvent(type, count)`
(an exception is caught by the caller), `traffic_lights[idx].resetQueues()`, or
`updateLightTimings(traffic_lights)`. -/
inductive Op where
  | receive (idx : Nat) (type : String) (count : Int)
  | reset (idx : Nat)
  | update

/-- Application of `f` to the element at position `idx`, if there is one. -/
def atIndex (f : TrafficLight → TrafficLight) : Nat → List TrafficLight → List TrafficLight
  | _, [] => []
  | 0, l :: ls => f l :: ls
  | idx + 1, l :: ls => l :: atIndex f idx ls

/-- Collection after one call. -/
def applyOp (fl : ℚ → ℚ) (sort : SortFn) (ls : List TrafficLight) : Op → List TrafficLight
  | Op.receive idx type count => atIndex (fun l => (l.receiveEvent type count).2) idx ls
  | Op.reset idx => atIndex TrafficLight.resetQueues idx ls
  | Op.update => TrafficLight.updateLightTimings fl sort ls

/-- Collection after a sequence of calls. -/
def runOps (fl : ℚ → ℚ) (sort : SortFn) (ls : List TrafficLight) (ops : List Op) :
    List TrafficLight :=
  ops.foldl (applyOp fl sort) ls

/-- The call does not take a counter beyond `INT_MAX`. -/
def Op.inRange (ls : List TrafficLight) : Op → Prop
  | Op.receive idx type count =>
    ∀ l, ls[idx]? = some l →
      (type = "vehicle" → l.vehicle_queue + count ≤ INT_MAX) ∧
      (type = "pedestrian" → l.pedestrian_queue + count ≤ INT_MAX)
  | Op.reset _ => True
  | Op.update => True

/-- No call of the sequence takes a counter beyond `INT_MAX`. -/
def opsInRange (fl : ℚ → ℚ) (sort : SortFn) : List TrafficLight → List Op → Prop
  | _, [] => True
  | ls, op :: ops => op.inRange ls ∧ opsInRange fl sort (applyOp fl sort ls op) ops

/-! ## Observations used in the statements -/

/-- Light with both counters multiplied by `k`. -/
def scaleDemand (k : Int) (l : TrafficLight) : TrafficLight :=
  { l with vehicle_queue := k * l.vehicle_queue, pedestrian_queue := k * l.pedestrian_queue }

/-- Sum of the priorities of a collection, without rounding of the sum. -/
def totalPriority (fl : ℚ → ℚ) (ls : List TrafficLight) : ℚ :=
  (ls.map (TrafficLight.calculatePriority fl)).sum

/-- Value of the variable `total_priority` of `updateLightTimings`: the priorities
added as doubles in ranked order. -/
def total_priority (fl : ℚ → ℚ) (sort : SortFn) (ls : List TrafficLight) : ℚ :=
  (TrafficLight.determinePriority fl sort ls).foldl (fun acc e => fl (acc + e.2)) 0

/-- Sum of the green times of a collection, added as doubles from left to right. -/
def greenTimeSum (fl : ℚ → ℚ) (ls : List TrafficLight) : Dbl :=
  ls.foldl (fun acc l => Dbl.add fl acc l.green_time) (Dbl.fin 0)

end TrafficLightModel

namespace TrafficLightModel

open TrafficLight

/-! ## Lemmas on machine integers -/

theorem wrapInt_of_isInt {x : Int} (h : isInt x) : wrapInt x = x := by
  unfold isInt INT_MIN INT_MAX at h
  unfold wrapInt
  omega

theorem isInt_wrapInt (x : Int) : isInt (wrapInt x) := by
  unfold isInt INT_MIN INT_MAX wrapInt
  omega

/-! ## Lemmas on the rounding of binary64 -/

theorem floor_le_roundHalfEven (t : ℚ) : ⌊t⌋ ≤ roundHalfEven t := by
  unfold roundHalfEven
  split_ifs <;> omega

theorem roundHalfEven_le_floor_succ (t : ℚ) : roundHalfEven t ≤ ⌊t⌋ + 1 := by
  unfold roundHalfEven
  split_ifs <;> omega

theorem roundHalfEven_intCast (n : ℤ) : roundHalfEven (n : ℚ) = n := by
  unfold roundHalfEven
  simp

theorem roundHalfEven_mono {s t : ℚ} (h : s ≤ t) : roundHalfEven s ≤ roundHalfEven t := by
  have hf : ⌊s⌋ ≤ ⌊t⌋ := Int.floor_mono h
  rcases lt_or_eq_of_le hf with hlt | heq
  · calc roundHalfEven s ≤ ⌊s⌋ + 1 := roundHalfEven_le_floor_succ s
      _ ≤ ⌊t⌋ := by omega
      _ ≤ roundHalfEven t := floor_le_roundHalfEven t
  · unfold roundHalfEven
    rw [heq]
    have hst : s - (⌊t⌋ : ℚ) ≤ t - (⌊t⌋ : ℚ) := by linarith
    split_ifs <;> first | omega | (exfalso; linarith)

theorem expUp_spec (fuel : Nat) (x : ℚ) (h1 : 1 ≤ x) (h2 : x < 2 ^ fuel) :
    (2 : ℚ) ^ expUp fuel x ≤ x ∧ x < 2 ^ (expUp fuel x + 1) := by
  induction fuel generalizing x with
  | zero =>
    simp at h2
    linarith
  | succ n ih =>
    unfold expUp
    split_ifs with hx
    · simp
      exact ⟨h1, hx⟩
    · have hx2 : 2 ≤ x := not_lt.mp hx
      have h3 : x / 2 < 2 ^ n := by
        rw [pow_succ] at h2
        linarith
      obtain ⟨ha, hb⟩ := ih (x / 2) (by linarith) h3
      have e1 : (2 : ℚ) ^ (expUp n (x / 2) + 1) = 2 ^ expUp n (x / 2) * 2 :=
        zpow_add_one₀ two_ne_zero _
      have e2 : (2 : ℚ) ^ (expUp n (x / 2) + 1 + 1) = 2 ^ (expUp n (x / 2) + 1) * 2 :=
        zpow_add_one₀ two_ne_zero _
      rw [e2]
      constructor <;> linarith

theorem expDown_spec (fuel : Nat) (x : ℚ) (h0 : 0 < x) (h1 : x < 2)
    (h2 : ((2 : ℚ) ^ fuel)⁻¹ ≤ x) :
    (2 : ℚ) ^ expDown fuel x ≤ x ∧ x < 2 ^ (expDown fuel x + 1) := by
  induction fuel generalizing x with
  | zero =>
    simp at h2
    simp [expDown]
    exact ⟨h2, h1⟩
  | succ n ih =>
    unfold expDown
    split_ifs with hx
    · simp
      exact ⟨hx, h1⟩
    · have hx1 : x < 1 := not_le.mp hx
      have h3 : ((2 : ℚ) ^ n)⁻¹ ≤ 2 * x := by
        rw [pow_succ, mul_inv] at h2
        have hp : (0 : ℚ) < ((2 : ℚ) ^ n)⁻¹ := by positivity
        linarith
      obtain ⟨ha, hb⟩ := ih (2 * x) (by linarith) (by linarith) h3
      rw [sub_add_cancel]
      rw [zpow_sub_one₀ (two_ne_zero)]
      rw [zpow_add_one₀ (two_ne_zero)] at hb
      constructor <;> linarith

theorem exponent_spec (x : ℚ) (h0 : 0 < x) :
    (2 : ℚ) ^ exponent x ≤ x ∧ x < 2 ^ (exponent x + 1) := by
  have hnum : 0 < x.num := Rat.num_pos.mpr h0
  have hden : (0 : ℚ) < x.den := by exact_mod_cast x.den_pos
  have hden1 : (1 : ℚ) ≤ x.den := by exact_mod_cast x.den_pos
  have hx : (x.num : ℚ) / x.den = x := Rat.num_div_den x
  unfold exponent
  split_ifs with h1
  · apply expUp_spec _ _ h1
    have hn : (x.num.natAbs : ℚ) = (x.num : ℚ) := by
      rw [Nat.cast_natAbs, abs_of_pos hnum]
    have hle : (x.num : ℚ) / x.den ≤ x.num :=
      div_le_self (by exact_mod_cast le_of_lt hnum) hden1
    rw [hx] at hle
    have hlt : (x.num.natAbs : ℚ) < 2 ^ x.num.natAbs := by
      exact_mod_cast Nat.lt_two_pow x.num.natAbs
    linarith
  · apply expDown_spec _ _ h0 (by linarith)
    have hlt : (x.den : ℚ) < 2 ^ x.den := by exact_mod_cast Nat.lt_two_pow x.den
    have h1n : (1 : ℚ) ≤ x.num := by exact_mod_cast hnum
    have hle : 1 / (x.den : ℚ) ≤ (x.num : ℚ) / x.den :=
      div_le_div_of_nonneg_right h1n (le_of_lt hden)
    rw [hx] at hle
    have hinv : 1 / ((2 : ℚ) ^ x.den) ≤ 1 / (x.den : ℚ) :=
      one_div_le_one_div_of_le hden (le_of_lt hlt)
    rw [← one_div]
    linarith

theorem exponent_unique (x : ℚ) (k : ℤ) (h0 : 0 < x) (hlo : (2 : ℚ) ^ k ≤ x)
    (hhi : x < 2 ^ (k + 1)) : exponent x = k := by
  obtain ⟨ha, hb⟩ := exponent_spec x h0
  have h1 : (2 : ℚ) ^ k < 2 ^ (exponent x + 1) := lt_of_le_of_lt hlo hb
  have h2 : (2 : ℚ) ^ exponent x < 2 ^ (k + 1) := lt_of_le_of_lt ha hhi
  rw [zpow_lt_zpow_iff_right₀ (by norm_num)] at h1 h2
  omega

theorem roundPos_bounds (x : ℚ) (h0 : 0 < x) :
    (2 : ℚ) ^ exponent x ≤ roundPos x ∧ roundPos x ≤ 2 ^ (exponent x + 1) := by
  obtain ⟨ha, hb⟩ := exponent_spec x h0
  have hu : (0 : ℚ) < 2 ^ (exponent x - 52) := zpow_pos (by norm_num) _
  have e1 : (2 : ℚ) ^ exponent x = 2 ^ (52 : ℕ) * 2 ^ (exponent x - 52) := by
    rw [← zpow_natCast, ← zpow_add₀ two_ne_zero]
    congr 1
    omega
  have e2 : (2 : ℚ) ^ (exponent x + 1) = 2 ^ (53 : ℕ) * 2 ^ (exponent x - 52) := by
    rw [← zpow_natCast, ← zpow_add₀ two_ne_zero]
    congr 1
    omega
  have t1 : ((2 ^ (52 : ℕ) : ℤ) : ℚ) ≤ x / 2 ^ (exponent x - 52) := by
    rw [le_div_iff₀ hu, Int.cast_pow, Int.cast_ofNat, ← e1]
    exact ha
  have t2 : x / 2 ^ (exponent x - 52) ≤ ((2 ^ (53 : ℕ) : ℤ) : ℚ) := by
    rw [div_le_iff₀ hu, Int.cast_pow, Int.cast_ofNat, ← e2]
    exact le_of_lt hb
  have m1 := roundHalfEven_mono t1
  have m2 := roundHalfEven_mono t2
  rw [roundHalfEven_intCast] at m1 m2
  unfold roundPos
  rw [e1, e2]
  constructor
  · apply mul_le_mul_of_nonneg_right _ (le_of_lt hu)
    exact_mod_cast m1
  · apply mul_le_mul_of_nonneg_right _ (le_of_lt hu)
    exact_mod_cast m2

theorem roundPos_pos (x : ℚ) (h0 : 0 < x) : 0 < roundPos x :=
  lt_of_lt_of_le (zpow_pos (by norm_num) _) (roundPos_bounds x h0).1

theorem roundPos_mono {x y : ℚ} (h0 : 0 < x) (hxy : x ≤ y) : roundPos x ≤ roundPos y := by
  have hy : 0 < y := lt_of_lt_of_le h0 hxy
  obtain ⟨xa, xb⟩ := exponent_spec x h0
  obtain ⟨ya, yb⟩ := exponent_spec y hy
  have hlt : (2 : ℚ) ^ exponent x < 2 ^ (exponent y + 1) :=
    lt_of_le_of_lt xa (lt_of_le_of_lt hxy yb)
  rw [zpow_lt_zpow_iff_right₀ (by norm_num)] at hlt
  rcases lt_or_eq_of_le (Int.lt_add_one_iff.mp hlt) with he | he
  · calc roundPos x ≤ 2 ^ (exponent x + 1) := (roundPos_bounds x h0).2
      _ ≤ 2 ^ exponent y := zpow_le_zpow_right₀ (by norm_num) (by omega)
      _ ≤ roundPos y := (roundPos_bounds y hy).1
  · unfold roundPos
    rw [he]
    have hu : (0 : ℚ) < 2 ^ (exponent y - 52) := zpow_pos (by norm_num) _
    apply mul_le_mul_of_nonneg_right _ (le_of_lt hu)
    have : x / 2 ^ (exponent y - 52) ≤ y / 2 ^ (exponent y - 52) :=
      div_le_div_of_nonneg_right hxy (le_of_lt hu)
    exact_mod_cast roundHalfEven_mono this

theorem binary64_zero : binary64 0 = 0 := by
  simp [binary64]

theorem binary64_nonneg {x : ℚ} (h : 0 ≤ x) : 0 ≤ binary64 x := by
  unfold binary64
  split_ifs with h1 h2
  · exact le_refl _
  · exact absurd h (not_le.mpr h2)
  · exact le_of_lt (roundPos_pos x (lt_of_le_of_ne h (Ne.symm h1)))

theorem binary64_nonpos {x : ℚ} (h : x ≤ 0) : binary64 x ≤ 0 := by
  unfold binary64
  split_ifs with h1 h2
  · exact le_refl _
  · have := roundPos_pos (-x) (by linarith)
    linarith
  · exact absurd (le_antisymm h (not_lt.mp h2)) h1

theorem binary64_mono : Monotone binary64 := by
  intro x y hxy
  rcases lt_trichotomy x 0 with hx | hx | hx
  · rcases lt_or_le y 0 with hy | hy
    · have hm := roundPos_mono (by linarith : (0 : ℚ) < -y) (by linarith : -y ≤ -x)
      simp only [binary64, ne_of_lt hx, ne_of_lt hy, hx, hy, if_true, if_false]
      linarith
    · exact le_trans (binary64_nonpos (le_of_lt hx)) (binary64_nonneg hy)
  · rw [hx] at hxy ⊢
    rw [binary64_zero]
    exact binary64_nonneg hxy
  · have hy : 0 < y := lt_of_lt_of_le hx hxy
    have hm := roundPos_mono hx hxy
    simp only [binary64, ne_of_gt hx, ne_of_gt hy, not_lt.mpr (le_of_lt hx),
      not_lt.mpr (le_of_lt hy), if_false]
    exact hm

theorem significand_bounds (x : ℚ) (h0 : 0 < x) :
    (2 : ℤ) ^ (52 : ℕ) ≤ roundHalfEven (x / 2 ^ (exponent x - 52)) ∧
    roundHalfEven (x / 2 ^ (exponent x - 52)) ≤ (2 : ℤ) ^ (53 : ℕ) := by
  obtain ⟨ha, hb⟩ := exponent_spec x h0
  have hu : (0 : ℚ) < 2 ^ (exponent x - 52) := zpow_pos (by norm_num) _
  have e1 : (2 : ℚ) ^ exponent x = 2 ^ (52 : ℕ) * 2 ^ (exponent x - 52) := by
    rw [← zpow_natCast, ← zpow_add₀ two_ne_zero]
    congr 1
    omega
  have e2 : (2 : ℚ) ^ (exponent x + 1) = 2 ^ (53 : ℕ) * 2 ^ (exponent x - 52) := by
    rw [← zpow_natCast, ← zpow_add₀ two_ne_zero]
    congr 1
    omega
  have t1 : ((2 ^ (52 : ℕ) : ℤ) : ℚ) ≤ x / 2 ^ (exponent x - 52) := by
    rw [le_div_iff₀ hu, Int.cast_pow, Int.cast_ofNat, ← e1]
    exact ha
  have t2 : x / 2 ^ (exponent x - 52) ≤ ((2 ^ (53 : ℕ) : ℤ) : ℚ) := by
    rw [div_le_iff₀ hu, Int.cast_pow, Int.cast_ofNat, ← e2]
    exact le_of_lt hb
  have m1 := roundHalfEven_mono t1
  have m2 := roundHalfEven_mono t2
  rw [roundHalfEven_intCast] at m1 m2
  exact ⟨m1, m2⟩

theorem roundPos_of_significand (m k : ℤ) (h1 : (2 : ℤ) ^ (52 : ℕ) ≤ m)
    (h2 : m < (2 : ℤ) ^ (53 : ℕ)) : roundPos ((m : ℚ) * 2 ^ k) = (m : ℚ) * 2 ^ k := by
  have hu : (0 : ℚ) < 2 ^ k := zpow_pos (by norm_num) _
  have hm1 : (2 : ℚ) ^ (52 : ℕ) ≤ (m : ℚ) := by exact_mod_cast h1
  have hm2 : (m : ℚ) < (2 : ℚ) ^ (53 : ℕ) := by exact_mod_cast h2
  have hpos : (0 : ℚ) < (m : ℚ) * 2 ^ k := mul_pos (lt_of_lt_of_le (by norm_num) hm1) hu
  have e1 : (2 : ℚ) ^ (k + 52) = 2 ^ (52 : ℕ) * 2 ^ k := by
    rw [← zpow_natCast, ← zpow_add₀ two_ne_zero]
    congr 1
    omega
  have e2 : (2 : ℚ) ^ (k + 52 + 1) = 2 ^ (53 : ℕ) * 2 ^ k := by
    rw [← zpow_natCast, ← zpow_add₀ two_ne_zero]
    congr 1
    omega
  have he : exponent ((m : ℚ) * 2 ^ k) = k + 52 := by
    apply exponent_unique _ _ hpos
    · rw [e1]
      exact mul_le_mul_of_nonneg_right hm1 (le_of_lt hu)
    · rw [e2]
      exact mul_lt_mul_of_pos_right hm2 hu
  unfold roundPos
  rw [he, add_sub_cancel_right, mul_div_assoc, div_self (ne_of_gt hu), mul_one,
    roundHalfEven_intCast]

theorem roundPos_idem (x : ℚ) (h0 : 0 < x) : roundPos (roundPos x) = roundPos x := by
  obtain ⟨m1, m2⟩ := significand_bounds x h0
  rcases lt_or_eq_of_le m2 with hlt | heq
  · exact roundPos_of_significand _ _ m1 hlt
  · have hr : roundPos x = (((2 : ℤ) ^ (52 : ℕ) : ℤ) : ℚ) * 2 ^ (exponent x - 52 + 1) := by
      unfold roundPos
      rw [heq, zpow_add_one₀ two_ne_zero]
      push_cast
      ring
    rw [hr]
    exact roundPos_of_significand _ _ (le_refl _) (by norm_num)

theorem binary64_idem (x : ℚ) : binary64 (binary64 x) = binary64 x := by
  rcases lt_trichotomy x 0 with hx | hx | hx
  · have hr : 0 < roundPos (-x) := roundPos_pos (-x) (by linarith)
    have h1 : binary64 x = -roundPos (-x) := by
      simp only [binary64, ne_of_lt hx, hx, if_true, if_false]
    rw [h1]
    have hn : -roundPos (-x) < 0 := by linarith
    simp only [binary64, ne_of_lt hn, hn, if_true, if_false, neg_neg]
    rw [roundPos_idem (-x) (by linarith)]
  · rw [hx, binary64_zero, binary64_zero]
  · have hr : 0 < roundPos x := roundPos_pos x hx
    have h1 : binary64 x = roundPos x := by
      simp only [binary64, ne_of_gt hx, not_lt.mpr (le_of_lt hx), if_false]
    rw [h1]
    simp only [binary64, ne_of_gt hr, not_lt.mpr (le_of_lt hr), if_false]
    exact roundPos_idem x hx

theorem binary64_one : binary64 1 = 1 := by decide!

theorem binary64_sixty : binary64 60 = 60 := by decide!

theorem rounding_binary64 : Rounding binary64 where
  mono := binary64_mono
  idem := binary64_idem
  zero := binary64_zero
  one := binary64_one
  sixty := binary64_sixty

theorem rounding_exactArith : Rounding exactArith where
  mono := fun _ _ h => h
  idem := fun _ => rfl
  zero := rfl
  one := rfl
  sixty := rfl

/-! ## Lemmas on the comparator and on the sorting routines -/

theorem byPriority_eq_true {a b : Entry} : byPriority a b = true ↔ b.2 < a.2 := by
  simp [byPriority]

theorem byPriority_eq_false {a b : Entry} : byPriority a b = false ↔ a.2 ≤ b.2 := by
  simp [byPriority]

theorem strictWeakOrdering_byPriority : StrictWeakOrdering byPriority where
  irrefl a := by simp [byPriority_eq_false]
  trans a b c h1 h2 := by
    rw [byPriority_eq_true] at *
    exact lt_trans h2 h1
  equiv_trans a b c h1 h2 h3 h4 := by
    rw [byPriority_eq_false] at h1 h2 h3 h4
    exact ⟨byPriority_eq_false.mpr (le_trans h1 h3), byPriority_eq_false.mpr (le_trans h4 h2)⟩

theorem StrictWeakOrdering.asymm {α : Type} {comp : α → α → Bool}
    (h : StrictWeakOrdering comp) {a b : α} (hab : comp a b = true) : comp b a = false := by
  by_contra hne
  have hba : comp b a = true := by simpa using hne
  have haa := h.trans a b a hab hba
  simp [h.irrefl a] at haa

theorem StrictWeakOrdering.neg_trans {α : Type} {comp : α → α → Bool}
    (h : StrictWeakOrdering comp) {a b c : α} (hab : comp a b = false)
    (hbc : comp b c = false) : comp a c = false := by
  by_contra hne
  have hac : comp a c = true := by simpa using hne
  have hba : comp b a = false := by
    by_contra hne2
    have hba : comp b a = true := by simpa using hne2
    have hbc2 := h.trans b a c hba hac
    simp [hbc] at hbc2
  have hcb : comp c b = false := by
    by_contra hne2
    have hcb : comp c b = true := by simpa using hne2
    have hab2 := h.trans a c b hac hcb
    simp [hab] at hab2
  have hf := (h.equiv_trans a b c hab hba hbc hcb).1
  simp [hac] at hf

theorem insertFront_perm {α : Type} (comp : α → α → Bool) (x : α) (l : List α) :
    (insertFront comp x l).Perm (x :: l) := by
  induction l with
  | nil => exact List.Perm.refl _
  | cons y ys ih =>
    unfold insertFront
    split
    · exact ((List.Perm.cons y ih).trans (List.Perm.swap x y ys))
    · exact List.Perm.refl _

theorem insertionSort_perm {α : Type} (comp : α → α → Bool) (l : List α) :
    (insertionSort comp l).Perm l := by
  induction l with
  | nil => exact List.Perm.refl _
  | cons x xs ih =>
    unfold insertionSort
    exact (insertFront_perm comp x _).trans (List.Perm.cons x ih)

theorem insertFront_sorted {α : Type} {comp : α → α → Bool} (h : StrictWeakOrdering comp)
    (x : α) (l : List α) (hl : l.Pairwise (fun a b => comp b a = false)) :
    (insertFront comp x l).Pairwise (fun a b => comp b a = false) := by
  induction l with
  | nil => simp [insertFront]
  | cons y ys ih =>
    rw [List.pairwise_cons] at hl
    unfold insertFront
    split
    next hyx =>
      rw [List.pairwise_cons]
      refine ⟨?_, ih hl.2⟩
      intro z hz
      have hz2 := (insertFront_perm comp x ys).subset hz
      rcases List.mem_cons.mp hz2 with hzx | hzy
      · rw [hzx]
        exact h.asymm hyx
      · exact hl.1 z hzy
    next hyx =>
      have hyx2 : comp y x = false := by simpa using hyx
      rw [List.pairwise_cons]
      refine ⟨?_, List.pairwise_cons.mpr hl⟩
      intro z hz
      rcases List.mem_cons.mp hz with hzy | hzy
      · rw [hzy]
        exact hyx2
      · exact h.neg_trans (hl.1 z hzy) hyx2

theorem insertionSort_sorted {α : Type} {comp : α → α → Bool} (h : StrictWeakOrdering comp)
    (l : List α) : (insertionSort comp l).Pairwise (fun a b => comp b a = false) := by
  induction l with
  | nil => simp [insertionSort]
  | cons x xs ih =>
    unfold insertionSort
    exact insertFront_sorted h x _ ih

theorem stdSort_insertionSort : StdSort insertionSort where
  perm comp l _ := insertionSort_perm comp l
  sorted _ l h := insertionSort_sorted h l

/-! ## Recording demand: `receiveEvent` -/

/-- C4, as stated, fails: a node fresh from the constructor receives `INT_MAX`
vehicles, which brings `vehicle_queue` to `INT_MAX`, and then one vehicle more; the
second call succeeds but the counter becomes `INT_MIN`, not `INT_MAX + 1`.  The
pedestrian counter behaves the same way. -/
theorem receiveEvent_overflow_counterexample :
    isInt 2147483647 ∧ (0 : Int) ≤ 1 ∧
    ((TrafficLight.mk0 0).receiveEvent "vehicle" 2147483647).2
      = TrafficLight.mk 0 2147483647 0 (Dbl.fin 0) ∧
    ((TrafficLight.mk 0 2147483647 0 (Dbl.fin 0)).receiveEvent "vehicle" 1).2.vehicle_queue
      = -2147483648 ∧
    ((TrafficLight.mk 0 2147483647 0 (Dbl.fin 0)).receiveEvent "vehicle" 1).2.vehicle_queue
      ≠ 2147483647 + 1 ∧
    ((TrafficLight.mk 0 0 2147483647 (Dbl.fin 0)).receiveEvent "pedestrian" 1).2.pedestrian_queue
      ≠ 2147483647 + 1 := by
  decide

/-- C4, amended: for every node state and every count `n >= 0`, `receiveEvent("vehicle", n)`
succeeds, and when `vehicle_queue + n` does not exceed `INT_MAX` it increases
`vehicle_queue` by exactly `n` and leaves every other field unchanged; the same holds
for `receiveEvent("pedestrian", n)` and `pedestrian_queue`. -/
theorem receiveEvent_adds_count (self : TrafficLight) (n : Int) (hn : 0 ≤ n)
    (hv : isInt self.vehicle_queue) (hp : isInt self.pedestrian_queue) :
    (self.receiveEvent "vehicle" n).1 = Except.ok () ∧
    (self.receiveEvent "pedestrian" n).1 = Except.ok () ∧
    (self.vehicle_queue + n ≤ INT_MAX →
      (self.receiveEvent "vehicle" n).2
        = { self with vehicle_queue := self.vehicle_queue + n }) ∧
    (self.pedestrian_queue + n ≤ INT_MAX →
      (self.receiveEvent "pedestrian" n).2
        = { self with pedestrian_queue := self.pedestrian_queue + n }) := by
  have hn2 : ¬ n < 0 := not_lt.mpr hn
  have hne : ¬ ("pedestrian" = "vehicle") := by decide
  refine ⟨?_, ?_, ?_, ?_⟩
  · simp [receiveEvent, hn2]
  · simp [receiveEvent, hn2]
  · intro h
    have hr : wrapInt (self.vehicle_queue + n) = self.vehicle_queue + n :=
      wrapInt_of_isInt ⟨by have := hv.1; omega, h⟩
    simp [receiveEvent, hn2, hr]
  · intro h
    have hr : wrapInt (self.pedestrian_queue + n) = self.pedestrian_queue + n :=
      wrapInt_of_isInt ⟨by have := hp.1; omega, h⟩
    simp [receiveEvent, hn2, hr]

/-- Witness of `receiveEvent_adds_count`: a node at (4, 9) receives 3 vehicles, or 3
pedestrians. -/
theorem receiveEvent_adds_count_witness :
    ((TrafficLight.mk 2 4 9 (Dbl.fin 0)).receiveEvent "vehicle" 3).2
      = TrafficLight.mk 2 7 9 (Dbl.fin 0) ∧
    ((TrafficLight.mk 2 4 9 (Dbl.fin 0)).receiveEvent "pedestrian" 3).2
      = TrafficLight.mk 2 4 12 (Dbl.fin 0) :=
  ⟨(receiveEvent_adds_count (TrafficLight.mk 2 4 9 (Dbl.fin 0)) 3 (by decide) (by decide)
      (by decide)).2.2.1 (by decide),
   (receiveEvent_adds_count (TrafficLight.mk 2 4 9 (Dbl.fin 0)) 3 (by decide) (by decide)
      (by decide)).2.2.2 (by decide)⟩

/-- C5: `receiveEvent` fails exactly when the count is negative or the kind is neither
"vehicle" nor "pedestrian"; a negative count throws the exception "Count cannot be
negative", an unrecognized kind with a non-negative count throws "Invalid event
type". -/
theorem receiveEvent_fails_iff (self : TrafficLight) (type : String) (count : Int) :
    ((self.receiveEvent type count).1 ≠ Except.ok () ↔
      (count < 0 ∨ (type ≠ "vehicle" ∧ type ≠ "pedestrian"))) ∧
    (count < 0 → (self.receiveEvent type count).1
      = Except.error (Exception.invalid_argument "Count cannot be negative")) ∧
    (0 ≤ count → type ≠ "vehicle" → type ≠ "pedestrian" →
      (self.receiveEvent type count).1
        = Except.error (Exception.invalid_argument "Invalid event type")) := by
  refine ⟨?_, ?_, ?_⟩
  · unfold receiveEvent
    by_cases hc : count < 0
    · simp [hc]
    · by_cases hv : type = "vehicle"
      · simp [hc, hv]
      · by_cases hp : type = "pedestrian"
        · simp [hc, hp]
        · simp [hc, hv, hp]
  · intro hc
    simp [receiveEvent, hc]
  · intro hc hv hp
    simp [receiveEvent, not_lt.mpr hc, hv, hp]

/-- Witness of `receiveEvent_fails_iff`: count -1 with kind "vehicle", and count 5
with kind "bicycle". -/
theorem receiveEvent_fails_iff_witness :
    ((TrafficLight.mk0 0).receiveEvent "vehicle" (-1)).1
      = Except.error (Exception.invalid_argument "Count cannot be negative") ∧
    ((TrafficLight.mk0 0).receiveEvent "bicycle" 5).1
      = Except.error (Exception.invalid_argument "Invalid event type") :=
  ⟨(receiveEvent_fails_iff (TrafficLight.mk0 0) "vehicle" (-1)).2.1 (by decide),
   (receiveEvent_fails_iff (TrafficLight.mk0 0) "bicycle" 5).2.2 (by decide) (by decide)
      (by decide)⟩

/-- C6: when `receiveEvent` fails (negative count or unrecognized kind) it throws and
the node afterwards is identical to the node before: id, both counters and the green
time are unchanged. -/
theorem receiveEvent_failure_keeps_state (self : TrafficLight) (type : String) (count : Int)
    (h : count < 0 ∨ (type ≠ "vehicle" ∧ type ≠ "pedestrian")) :
    (∃ e, (self.receiveEvent type count).1 = Except.error e) ∧
    (self.receiveEvent type count).2 = self := by
  unfold receiveEvent
  by_cases hc : count < 0
  · simp [hc]
  · rcases h with h | ⟨hv, hp⟩
    · exact absurd h hc
    · simp [hc, hv, hp]

/-- Witness of `receiveEvent_failure_keeps_state`: a node at (4, 9) with green time 12
is sent the kind "bicycle". -/
theorem receiveEvent_failure_keeps_state_witness :
    ((TrafficLight.mk 1 4 9 (Dbl.fin 12)).receiveEvent "bicycle" 5).2
      = TrafficLight.mk 1 4 9 (Dbl.fin 12) :=
  (receiveEvent_failure_keeps_state (TrafficLight.mk 1 4 9 (Dbl.fin 12)) "bicycle" 5
    (Or.inr ⟨by decide, by decide⟩)).2

/-! ## Priority score -/

/-- C7: for every counter state `(v, p)`, `calculatePriority` returns the value of
`v * VEHICLE_WEIGHT + p * PEDESTRIAN_WEIGHT` as the program computes it in doubles:
the two products and the sum, each rounded to binary64, with the doubles nearest to
0.7 and 0.3 as weights.  It returns 0 at (0, 0), and `sendEvent` returns the id paired
with that value; both are functions of the node and return no changed node.  At
(3, 0) the value is 2.0999999999999996, at (10, 0) it is 7 and at (0, 10) it is 3.
Read without rounding, the same expression is `(7 v + 3 p) / 10`. -/
theorem calculatePriority_eq (i v p : Int) (g : Dbl) :
    (TrafficLight.mk i v p g).calculatePriority binary64
      = binary64 (binary64 ((v : ℚ) * VEHICLE_WEIGHT binary64)
          + binary64 ((p : ℚ) * PEDESTRIAN_WEIGHT binary64)) ∧
    (TrafficLight.mk i v p g).calculatePriority exactArith
      = (7 * (v : ℚ) + 3 * (p : ℚ)) / 10 ∧
    VEHICLE_WEIGHT binary64 = 6305039478318694 / 2 ^ 53 ∧
    PEDESTRIAN_WEIGHT binary64 = 5404319552844595 / 2 ^ 54 ∧
    (TrafficLight.mk i 0 0 g).calculatePriority binary64 = 0 ∧
    (TrafficLight.mk i v p g).sendEvent binary64
      = (i, (TrafficLight.mk i v p g).calculatePriority binary64) ∧
    (TrafficLight.mk i 3 0 g).calculatePriority binary64 = 4728779608739020 / 2 ^ 51 ∧
    (TrafficLight.mk i 10 0 g).calculatePriority binary64 = 7 ∧
    (TrafficLight.mk i 0 10 g).calculatePriority binary64 = 3 := by
  have hrepr : ∀ a b : Int, (TrafficLight.mk i a b g).calculatePriority binary64
      = (TrafficLight.mk 0 a b (Dbl.fin 0)).calculatePriority binary64 := fun _ _ => rfl
  refine ⟨rfl, ?_, by decide!, by decide!, ?_, rfl, ?_, ?_, ?_⟩
  · simp only [calculatePriority, VEHICLE_WEIGHT, PEDESTRIAN_WEIGHT, exactArith]
    ring
  · rw [hrepr]
    decide!
  · rw [hrepr]
    decide!
  · rw [hrepr]
    decide!
  · rw [hrepr]
    decide!

/-! ## Ranking: `determinePriority` -/

/-- C8: for every input sequence of nodes, and every `std::sort` that meets its
contract, the output of `determinePriority` is sorted by priority descending: each
entry has a priority at least that of every later entry, in particular of the next
one.  This holds whatever the rounding of the arithmetic. -/
theorem determinePriority_sorted (fl : ℚ → ℚ) (sort : SortFn) (hs : StdSort sort)
    (ls : List TrafficLight) :
    (determinePriority fl sort ls).Pairwise (fun a b => b.2 ≤ a.2) ∧
    ∀ (i : Nat) (h : i + 1 < (determinePriority fl sort ls).length),
      ((determinePriority fl sort ls)[i + 1]).2 ≤ ((determinePriority fl sort ls)[i]).2 := by
  have hp : (determinePriority fl sort ls).Pairwise (fun a b => b.2 ≤ a.2) := by
    have h0 := hs.sorted byPriority (ls.map (sendEvent fl)) strictWeakOrdering_byPriority
    exact h0.imp (fun h => byPriority_eq_false.mp h)
  refine ⟨hp, ?_⟩
  intro i h
  exact (List.pairwise_iff_getElem.mp hp) i (i + 1) (by omega) h (by omega)

/-- Witness of `determinePriority_sorted`: nodes with demand (0,10), (5,5), (5,5)
ranked with insertion sort in the arithmetic of the program. -/
theorem determinePriority_sorted_witness :
    StdSort insertionSort ∧
    (determinePriority binary64 insertionSort
      [TrafficLight.mk 0 0 10 (Dbl.fin 0), TrafficLight.mk 1 5 5 (Dbl.fin 0),
       TrafficLight.mk 2 5 5 (Dbl.fin 0)]).Pairwise (fun a b => b.2 ≤ a.2) :=
  ⟨stdSort_insertionSort,
   (determinePriority_sorted binary64 insertionSort stdSort_insertionSort
      [TrafficLight.mk 0 0 10 (Dbl.fin 0), TrafficLight.mk 1 5 5 (Dbl.fin 0),
       TrafficLight.mk 2 5 5 (Dbl.fin 0)]).1⟩

/-- C10: for every input sequence of nodes, and every `std::sort` that meets its
contract, the output of `determinePriority` is a permutation of the list of
`(id, priority)` pairs of the input nodes, so it has the length of the input and
holds each node's pair as often as the input does; the empty input gives the empty
output.  This holds whatever the rounding of the arithmetic. -/
theorem determinePriority_perm (fl : ℚ → ℚ) (sort : SortFn) (hs : StdSort sort)
    (ls : List TrafficLight) :
    (determinePriority fl sort ls).Perm (ls.map (sendEvent fl)) ∧
    (determinePriority fl sort ls).length = ls.length ∧
    determinePriority fl sort [] = [] := by
  have hp : ∀ l : List TrafficLight,
      (determinePriority fl sort l).Perm (l.map (sendEvent fl)) :=
    fun l => hs.perm byPriority (l.map (sendEvent fl)) strictWeakOrdering_byPriority
  refine ⟨hp ls, ?_, ?_⟩
  · rw [(hp ls).length_eq, List.length_map]
  · exact List.Perm.eq_nil (hp [])

/-- Witness of `determinePriority_perm`: three nodes ranked with insertion sort, and
the empty collection. -/
theorem determinePriority_perm_witness :
    StdSort insertionSort ∧
    (determinePriority binary64 insertionSort
      [TrafficLight.mk 0 0 10 (Dbl.fin 0), TrafficLight.mk 1 5 5 (Dbl.fin 0),
       TrafficLight.mk 2 5 5 (Dbl.fin 0)]).length = 3 ∧
    determinePriority binary64 insertionSort [] = [] :=
  ⟨stdSort_insertionSort,
   (determinePriority_perm binary64 insertionSort stdSort_insertionSort
      [TrafficLight.mk 0 0 10 (Dbl.fin 0), TrafficLight.mk 1 5 5 (Dbl.fin 0),
       TrafficLight.mk 2 5 5 (Dbl.fin 0)]).2.1,
   (determinePriority_perm binary64 insertionSort stdSort_insertionSort []).2.2⟩

/-! ## Allocation: `updateLightTimings` -/

theorem foldl_add_snd (l : List Entry) (a : ℚ) :
    l.foldl (fun acc e => exactArith (acc + e.2)) a = a + (l.map Prod.snd).sum := by
  induction l generalizing a with
  | nil => simp
  | cons e es ih =>
    rw [List.foldl_cons, ih, List.map_cons, List.sum_cons]
    simp only [exactArith]
    ring

theorem total_priority_eq (sort : SortFn) (hs : StdSort sort) (ls : List TrafficLight) :
    total_priority exactArith sort ls = totalPriority exactArith ls := by
  have hp : (determinePriority exactArith sort ls).Perm (ls.map (sendEvent exactArith)) :=
    hs.perm byPriority (ls.map (sendEvent exactArith)) strictWeakOrdering_byPriority
  unfold total_priority
  rw [foldl_add_snd, zero_add, (hp.map Prod.snd).sum_eq, totalPriority, List.map_map]
  rfl

theorem calculatePriority_exactArith (l : TrafficLight) :
    l.calculatePriority exactArith
      = (l.vehicle_queue : ℚ) * (7 / 10) + (l.pedestrian_queue : ℚ) * (3 / 10) := rfl

theorem currentPriority_of_mem (i : Int) (p : ℚ) (l : List Entry)
    (hn : (l.map Prod.fst).Nodup) (hm : (i, p) ∈ l) : currentPriority i l = p := by
  induction l with
  | nil => simp at hm
  | cons e es ih =>
    rw [List.map_cons, List.nodup_cons] at hn
    unfold currentPriority
    rcases List.mem_cons.mp hm with he | he
    · simp [← he]
    · have hne : e.1 ≠ i := by
        intro heq
        apply hn.1
        rw [heq]
        exact List.mem_map.mpr ⟨(i, p), he, rfl⟩
      simp [hne, ih hn.2 he]

theorem currentPriority_determinePriority (fl : ℚ → ℚ) (sort : SortFn) (hs : StdSort sort)
    (ls : List TrafficLight) (hid : (ls.map getId).Nodup) (light : TrafficLight)
    (hl : light ∈ ls) :
    currentPriority light.getId (determinePriority fl sort ls)
      = light.calculatePriority fl := by
  have hp : (determinePriority fl sort ls).Perm (ls.map (sendEvent fl)) :=
    hs.perm byPriority (ls.map (sendEvent fl)) strictWeakOrdering_byPriority
  apply currentPriority_of_mem
  · have h1 : ((determinePriority fl sort ls).map Prod.fst).Perm (ls.map getId) := by
      have h2 := hp.map Prod.fst
      rw [List.map_map] at h2
      exact h2
    exact h1.nodup_iff.mpr hid
  · exact hp.mem_iff.mpr (List.mem_map.mpr ⟨light, hl, rfl⟩)

theorem greenTimeSum_fin (f : TrafficLight → ℚ) (ls : List TrafficLight) :
    greenTimeSum exactArith (ls.map fun l => l.setGreenTime (Dbl.fin (f l)))
      = Dbl.fin (ls.map f).sum := by
  have key : ∀ (l : List TrafficLight) (a : ℚ),
      (l.map fun l => l.setGreenTime (Dbl.fin (f l))).foldl
        (fun acc l => Dbl.add exactArith acc l.green_time) (Dbl.fin a)
        = Dbl.fin (a + (l.map f).sum) := by
    intro l
    induction l with
    | nil => simp
    | cons x xs ih =>
      intro a
      have hstep : Dbl.add exactArith (Dbl.fin a) (x.setGreenTime (Dbl.fin (f x))).green_time
          = Dbl.fin (a + f x) := rfl
      rw [List.map_cons, List.foldl_cons, hstep, ih (a + f x), List.map_cons, List.sum_cons,
        add_assoc]
  have := key ls 0
  rw [zero_add] at this
  exact this

theorem updateLightTimings_eq_map (fl : ℚ → ℚ) (sort : SortFn) (hs : StdSort sort)
    (ls : List TrafficLight) (hid : (ls.map getId).Nodup)
    (hT : total_priority fl sort ls ≠ 0) :
    updateLightTimings fl sort ls
      = ls.map fun l =>
          l.setGreenTime
            (Dbl.fin (fl (fl (l.calculatePriority fl / total_priority fl sort ls)
              * MAX_GREEN_TIME))) := by
  unfold updateLightTimings
  simp only []
  apply List.map_congr_left
  intro light hl
  rw [currentPriority_determinePriority fl sort hs ls hid light hl]
  have hT2 : (determinePriority fl sort ls).foldl (fun acc e => fl (acc + e.2)) 0 ≠ 0 := hT
  simp only [Dbl.div, Dbl.mul, hT2, if_false]
  rfl

/-- C1: for every collection of nodes with pairwise distinct ids whose total priority
is positive, and every conforming `std::sort`, the green times assigned by
`updateLightTimings` add up to `MAX_GREEN_TIME` = 60, with the arithmetic read
exactly (no rounding, weights 7/10 and 3/10). -/
theorem updateLightTimings_conservation (sort : SortFn) (hs : StdSort sort)
    (ls : List TrafficLight) (hid : (ls.map getId).Nodup)
    (hT : 0 < totalPriority exactArith ls) :
    greenTimeSum exactArith (updateLightTimings exactArith sort ls) = Dbl.fin MAX_GREEN_TIME ∧
    MAX_GREEN_TIME = 60 := by
  refine ⟨?_, rfl⟩
  have hT2 : total_priority exactArith sort ls ≠ 0 := by
    rw [total_priority_eq sort hs ls]
    exact ne_of_gt hT
  rw [updateLightTimings_eq_map exactArith sort hs ls hid hT2, total_priority_eq sort hs ls]
  show greenTimeSum exactArith (ls.map fun l => l.setGreenTime (Dbl.fin
    (l.calculatePriority exactArith / totalPriority exactArith ls * MAX_GREEN_TIME))) = _
  rw [greenTimeSum_fin]
  congr 1
  have hsum : (ls.map fun l =>
        l.calculatePriority exactArith / totalPriority exactArith ls * MAX_GREEN_TIME).sum
      = (ls.map (calculatePriority exactArith)).sum
          * (MAX_GREEN_TIME / totalPriority exactArith ls) := by
    rw [← List.sum_map_mul_right]
    congr 1
    apply List.map_congr_left
    intro l _
    ring
  have hT3 : totalPriority exactArith ls ≠ 0 := ne_of_gt hT
  rw [hsum]
  change totalPriority exactArith ls * (MAX_GREEN_TIME / totalPriority exactArith ls)
    = MAX_GREEN_TIME
  field_simp

/-- Witness of `updateLightTimings_conservation`: the four nodes of the end-to-end
scenario, demand (10,0), (0,10), (0,0), (0,0). -/
theorem updateLightTimings_conservation_witness :
    StdSort insertionSort ∧
    (List.map getId [TrafficLight.mk 0 10 0 (Dbl.fin 0), TrafficLight.mk 1 0 10 (Dbl.fin 0),
      TrafficLight.mk 2 0 0 (Dbl.fin 0), TrafficLight.mk 3 0 0 (Dbl.fin 0)]).Nodup ∧
    0 < totalPriority exactArith
      [TrafficLight.mk 0 10 0 (Dbl.fin 0), TrafficLight.mk 1 0 10 (Dbl.fin 0),
       TrafficLight.mk 2 0 0 (Dbl.fin 0), TrafficLight.mk 3 0 0 (Dbl.fin 0)] ∧
    greenTimeSum exactArith (updateLightTimings exactArith insertionSort
      [TrafficLight.mk 0 10 0 (Dbl.fin 0), TrafficLight.mk 1 0 10 (Dbl.fin 0),
       TrafficLight.mk 2 0 0 (Dbl.fin 0), TrafficLight.mk 3 0 0 (Dbl.fin 0)]) = Dbl.fin 60 :=
  have hid : (List.map getId [TrafficLight.mk 0 10 0 (Dbl.fin 0),
      TrafficLight.mk 1 0 10 (Dbl.fin 0), TrafficLight.mk 2 0 0 (Dbl.fin 0),
      TrafficLight.mk 3 0 0 (Dbl.fin 0)]).Nodup := by decide
  have hT : 0 < totalPriority exactArith [TrafficLight.mk 0 10 0 (Dbl.fin 0),
      TrafficLight.mk 1 0 10 (Dbl.fin 0), TrafficLight.mk 2 0 0 (Dbl.fin 0),
      TrafficLight.mk 3 0 0 (Dbl.fin 0)] := by decide!
  ⟨stdSort_insertionSort, hid, hT,
    (updateLightTimings_conservation insertionSort stdSort_insertionSort _ hid hT).1⟩

/-- C2: for every collection of nodes with pairwise distinct ids and total priority
`T > 0`, whatever the order of the nodes and whatever conforming `std::sort` is used,
`updateLightTimings` sets the green time of each node to the value of
`(its own priority / T) * MAX_GREEN_TIME` and changes nothing else.  The quotient and
the product are those of the arithmetic in use, each rounded by `fl`, and `T` is the
variable `total_priority`; the program is the case `fl = binary64`. -/
theorem updateLightTimings_proportional (fl : ℚ → ℚ) (sort : SortFn) (hs : StdSort sort)
    (ls : List TrafficLight) (hid : (ls.map getId).Nodup)
    (hT : 0 < total_priority fl sort ls) :
    updateLightTimings fl sort ls
      = ls.map fun l =>
          l.setGreenTime
            (Dbl.fin (fl (fl (l.calculatePriority fl / total_priority fl sort ls)
              * MAX_GREEN_TIME))) :=
  updateLightTimings_eq_map fl sort hs ls hid (ne_of_gt hT)

/-- Witness of `updateLightTimings_proportional`, in the binary64 arithmetic of the
program: two nodes with priorities 2 and 1 get 40 and 20; four nodes with demand
(10,0), (0,10), (0,0), (0,0) get 42, 18, 0, 0, also when the node of highest priority
is not the first of the collection; two nodes with demand (6,6) and (3,3) get
40.000000000000007 and 20.000000000000004. -/
theorem updateLightTimings_proportional_witness :
    (List.map (calculatePriority binary64)
      [TrafficLight.mk 0 2 2 (Dbl.fin 0), TrafficLight.mk 1 1 1 (Dbl.fin 0)] = [2, 1] ∧
     List.map TrafficLight.green_time (updateLightTimings binary64 insertionSort
      [TrafficLight.mk 0 2 2 (Dbl.fin 0), TrafficLight.mk 1 1 1 (Dbl.fin 0)])
      = [Dbl.fin 40, Dbl.fin 20]) ∧
    List.map TrafficLight.green_time (updateLightTimings binary64 insertionSort
      [TrafficLight.mk 0 10 0 (Dbl.fin 0), TrafficLight.mk 1 0 10 (Dbl.fin 0),
       TrafficLight.mk 2 0 0 (Dbl.fin 0), TrafficLight.mk 3 0 0 (Dbl.fin 0)])
      = [Dbl.fin 42, Dbl.fin 18, Dbl.fin 0, Dbl.fin 0] ∧
    List.map TrafficLight.green_time (updateLightTimings binary64 insertionSort
      [TrafficLight.mk 3 0 0 (Dbl.fin 0), TrafficLight.mk 1 0 10 (Dbl.fin 0),
       TrafficLight.mk 0 10 0 (Dbl.fin 0), TrafficLight.mk 2 0 0 (Dbl.fin 0)])
      = [Dbl.fin 0, Dbl.fin 18, Dbl.fin 42, Dbl.fin 0] ∧
    List.map TrafficLight.green_time (updateLightTimings binary64 insertionSort
      [TrafficLight.mk 0 6 6 (Dbl.fin 0), TrafficLight.mk 1 3 3 (Dbl.fin 0)])
      = [Dbl.fin (5629499534213121 / 2 ^ 47), Dbl.fin (5629499534213121 / 2 ^ 48)] := by
  refine ⟨⟨by decide!, ?_⟩, ?_, ?_, ?_⟩
  · rw [updateLightTimings_proportional binary64 insertionSort stdSort_insertionSort _
      (by decide) (by decide!)]
    decide!
  · rw [updateLightTimings_proportional binary64 insertionSort stdSort_insertionSort _
      (by decide) (by decide!)]
    decide!
  · rw [updateLightTimings_proportional binary64 insertionSort stdSort_insertionSort _
      (by decide) (by decide!)]
    decide!
  · rw [updateLightTimings_proportional binary64 insertionSort stdSort_insertionSort _
      (by decide) (by decide!)]
    decide!

theorem currentPriority_of_all_zero (i : Int) (l : List Entry) (h : ∀ e ∈ l, e.2 = 0) :
    currentPriority i l = 0 := by
  induction l with
  | nil => rfl
  | cons e es ih =>
    unfold currentPriority
    split
    · exact h e (List.mem_cons_self e es)
    · exact ih (fun e2 he2 => h e2 (List.mem_cons_of_mem e he2))

theorem foldl_all_zero (fl : ℚ → ℚ) (h0 : fl 0 = 0) (l : List Entry)
    (h : ∀ e ∈ l, e.2 = 0) : l.foldl (fun acc e => fl (acc + e.2)) 0 = 0 := by
  induction l with
  | nil => rfl
  | cons e es ih =>
    rw [List.foldl_cons, h e (List.mem_cons_self e es), add_zero, h0]
    exact ih (fun e2 he2 => h e2 (List.mem_cons_of_mem e he2))

theorem updateLightTimings_all_idle (fl : ℚ → ℚ) (h0 : fl 0 = 0) (sort : SortFn)
    (hs : StdSort sort) (ls : List TrafficLight) (h : ∀ l ∈ ls, l.calculatePriority fl = 0) :
    updateLightTimings fl sort ls = ls.map fun l => l.setGreenTime Dbl.nan := by
  have hp : (determinePriority fl sort ls).Perm (ls.map (sendEvent fl)) :=
    hs.perm byPriority (ls.map (sendEvent fl)) strictWeakOrdering_byPriority
  have hz : ∀ e ∈ determinePriority fl sort ls, e.2 = 0 := by
    intro e he
    obtain ⟨l, hl, rfl⟩ := List.mem_map.mp (hp.mem_iff.mp he)
    exact h l hl
  unfold updateLightTimings
  simp only []
  apply List.map_congr_left
  intro light _
  rw [foldl_all_zero fl h0 _ hz, currentPriority_of_all_zero _ _ hz]
  simp [Dbl.div, Dbl.mul]

/-- C3, behaviour of the code on the zero-demand cycle: four nodes straight from the
constructor, all at (0,0) demand, have total priority 0, and `updateLightTimings`
stores NaN, the result of `0.0 / 0.0 * 60.0`, in every node instead of a share of
the budget such as the equal split 15; this is so in the binary64 arithmetic of the
program and in the exact reading alike. -/
theorem updateLightTimings_zero_demand_nan :
    total_priority binary64 insertionSort
      [TrafficLight.mk0 0, TrafficLight.mk0 1, TrafficLight.mk0 2, TrafficLight.mk0 3] = 0 ∧
    updateLightTimings binary64 insertionSort
      [TrafficLight.mk0 0, TrafficLight.mk0 1, TrafficLight.mk0 2, TrafficLight.mk0 3]
      = [TrafficLight.mk 0 0 0 Dbl.nan, TrafficLight.mk 1 0 0 Dbl.nan,
         TrafficLight.mk 2 0 0 Dbl.nan, TrafficLight.mk 3 0 0 Dbl.nan] ∧
    totalPriority exactArith
      [TrafficLight.mk0 0, TrafficLight.mk0 1, TrafficLight.mk0 2, TrafficLight.mk0 3] = 0 ∧
    updateLightTimings exactArith insertionSort
      [TrafficLight.mk0 0, TrafficLight.mk0 1, TrafficLight.mk0 2, TrafficLight.mk0 3]
      = [TrafficLight.mk 0 0 0 Dbl.nan, TrafficLight.mk 1 0 0 Dbl.nan,
         TrafficLight.mk 2 0 0 Dbl.nan, TrafficLight.mk 3 0 0 Dbl.nan] ∧
    Dbl.isNaN Dbl.nan = true ∧ Dbl.nan ≠ Dbl.fin 15 := by
  refine ⟨by decide!, by decide!, by decide!, by decide!, rfl, by decide⟩

/-! ## Bounds of the allocation -/

theorem Rounding.nonneg {fl : ℚ → ℚ} (hr : Rounding fl) {x : ℚ} (h : 0 ≤ x) : 0 ≤ fl x := by
  have := hr.mono h
  rw [hr.zero] at this
  exact this

theorem calculatePriority_nonneg (fl : ℚ → ℚ) (hr : Rounding fl) (l : TrafficLight)
    (hv : 0 ≤ l.vehicle_queue) (hp : 0 ≤ l.pedestrian_queue) : 0 ≤ l.calculatePriority fl := by
  have h1 : (0 : ℚ) ≤ (l.vehicle_queue : ℚ) := by exact_mod_cast hv
  have h2 : (0 : ℚ) ≤ (l.pedestrian_queue : ℚ) := by exact_mod_cast hp
  have w1 : 0 ≤ VEHICLE_WEIGHT fl := hr.nonneg (by norm_num)
  have w2 : 0 ≤ PEDESTRIAN_WEIGHT fl := hr.nonneg (by norm_num)
  unfold calculatePriority
  exact hr.nonneg (add_nonneg (hr.nonneg (mul_nonneg h1 w1)) (hr.nonneg (mul_nonneg h2 w2)))

theorem foldl_fl_ge (fl : ℚ → ℚ) (hr : Rounding fl) (l : List Entry)
    (hl : ∀ e ∈ l, 0 ≤ e.2 ∧ fl e.2 = e.2) (acc : ℚ) (h0 : 0 ≤ acc) (hfix : fl acc = acc) :
    acc ≤ l.foldl (fun acc e => fl (acc + e.2)) acc ∧
    ∀ e ∈ l, e.2 ≤ l.foldl (fun acc e => fl (acc + e.2)) acc := by
  induction l generalizing acc with
  | nil =>
    refine ⟨le_refl _, ?_⟩
    intro e he
    simp at he
  | cons e es ih =>
    have he := hl e (List.mem_cons_self e es)
    have h1 : acc ≤ fl (acc + e.2) := by
      have := hr.mono (show acc ≤ acc + e.2 by linarith [he.1])
      rw [hfix] at this
      exact this
    have h2 : e.2 ≤ fl (acc + e.2) := by
      have := hr.mono (show e.2 ≤ acc + e.2 by linarith)
      rw [he.2] at this
      exact this
    obtain ⟨i1, i2⟩ := ih (fun e2 he2 => hl e2 (List.mem_cons_of_mem e he2)) (fl (acc + e.2))
      (le_trans h0 h1) (hr.idem _)
    rw [List.foldl_cons]
    refine ⟨le_trans h1 i1, ?_⟩
    intro e2 he2
    rcases List.mem_cons.mp he2 with rfl | he3
    · exact le_trans h2 i1
    · exact i2 e2 he3

theorem calculatePriority_le_total (fl : ℚ → ℚ) (hr : Rounding fl) (sort : SortFn)
    (hs : StdSort sort) (ls : List TrafficLight)
    (hq : ∀ l ∈ ls, 0 ≤ l.vehicle_queue ∧ 0 ≤ l.pedestrian_queue)
    (l : TrafficLight) (hl : l ∈ ls) :
    l.calculatePriority fl ≤ total_priority fl sort ls := by
  have hp : (determinePriority fl sort ls).Perm (ls.map (sendEvent fl)) :=
    hs.perm byPriority (ls.map (sendEvent fl)) strictWeakOrdering_byPriority
  have hall : ∀ e ∈ determinePriority fl sort ls, 0 ≤ e.2 ∧ fl e.2 = e.2 := by
    intro e he
    obtain ⟨l2, hl2, rfl⟩ := List.mem_map.mp (hp.mem_iff.mp he)
    exact ⟨calculatePriority_nonneg fl hr l2 (hq l2 hl2).1 (hq l2 hl2).2, hr.idem _⟩
  have hmem : l.sendEvent fl ∈ determinePriority fl sort ls :=
    hp.mem_iff.mpr (List.mem_map.mpr ⟨l, hl, rfl⟩)
  exact (foldl_fl_ge fl hr _ hall 0 (le_refl _) hr.zero).2 _ hmem

/-- C11: for every collection of nodes with pairwise distinct ids, non-negative
counters and total priority > 0, and every conforming `std::sort`, every green time
assigned by `updateLightTimings` is a finite number `g` with
`0 <= g <= MAX_GREEN_TIME`.  This holds for every rounding with the properties
`Rounding`, so for the binary64 arithmetic of the program and for the exact reading. -/
theorem updateLightTimings_bounds (fl : ℚ → ℚ) (hr : Rounding fl) (sort : SortFn)
    (hs : StdSort sort) (ls : List TrafficLight) (hid : (ls.map getId).Nodup)
    (hq : ∀ l ∈ ls, 0 ≤ l.vehicle_queue ∧ 0 ≤ l.pedestrian_queue)
    (hT : 0 < totalPriority fl ls) :
    ∀ l ∈ updateLightTimings fl sort ls,
      (∃ g : ℚ, l.green_time = Dbl.fin g ∧ 0 ≤ g ∧ g ≤ MAX_GREEN_TIME) ∧
      Dbl.le (Dbl.fin 0) l.green_time = true ∧
      Dbl.le l.green_time (Dbl.fin MAX_GREEN_TIME) = true := by
  have hp0 : ∀ l ∈ ls, 0 ≤ l.calculatePriority fl :=
    fun l hl => calculatePriority_nonneg fl hr l (hq l hl).1 (hq l hl).2
  have hex : ∃ l ∈ ls, 0 < l.calculatePriority fl := by
    by_contra hne
    have hz : ∀ q ∈ ls.map (calculatePriority fl), q = 0 := by
      intro q hq2
      obtain ⟨l, hl, rfl⟩ := List.mem_map.mp hq2
      exact le_antisymm (not_lt.mp (fun hpos => hne ⟨l, hl, hpos⟩)) (hp0 l hl)
    have : totalPriority fl ls = 0 := List.sum_eq_zero hz
    rw [this] at hT
    exact lt_irrefl _ hT
  obtain ⟨l1, hl1, hpos1⟩ := hex
  have hTp : 0 < total_priority fl sort ls :=
    lt_of_lt_of_le hpos1 (calculatePriority_le_total fl hr sort hs ls hq l1 hl1)
  intro l hl
  rw [updateLightTimings_eq_map fl sort hs ls hid (ne_of_gt hTp)] at hl
  obtain ⟨l0, hl0, rfl⟩ := List.mem_map.mp hl
  have h0 : 0 ≤ l0.calculatePriority fl := hp0 l0 hl0
  have h1 : l0.calculatePriority fl ≤ total_priority fl sort ls :=
    calculatePriority_le_total fl hr sort hs ls hq l0 hl0
  have hM : (0 : ℚ) ≤ MAX_GREEN_TIME := by norm_num [MAX_GREEN_TIME]
  have hq0 : 0 ≤ fl (l0.calculatePriority fl / total_priority fl sort ls) :=
    hr.nonneg (div_nonneg h0 (le_of_lt hTp))
  have hq1 : fl (l0.calculatePriority fl / total_priority fl sort ls) ≤ 1 := by
    have := hr.mono ((div_le_one hTp).mpr h1)
    rw [hr.one] at this
    exact this
  have hlo : 0 ≤ fl (fl (l0.calculatePriority fl / total_priority fl sort ls)
      * MAX_GREEN_TIME) := hr.nonneg (mul_nonneg hq0 hM)
  have hhi : fl (fl (l0.calculatePriority fl / total_priority fl sort ls)
      * MAX_GREEN_TIME) ≤ MAX_GREEN_TIME := by
    have hprod : fl (l0.calculatePriority fl / total_priority fl sort ls) * MAX_GREEN_TIME
        ≤ 60 := by
      have := mul_le_mul_of_nonneg_right hq1 hM
      rw [one_mul] at this
      exact this
    have := hr.mono hprod
    rw [hr.sixty] at this
    exact this
  refine ⟨⟨_, rfl, hlo, hhi⟩, ?_, ?_⟩
  · simp [setGreenTime, Dbl.le, hlo]
  · simp [setGreenTime, Dbl.le, hhi]

/-- Witness of `updateLightTimings_bounds`, in the binary64 arithmetic of the program:
the four nodes of the end-to-end scenario, demand (10,0), (0,10), (0,0), (0,0). -/
theorem updateLightTimings_bounds_witness :
    (Rounding binary64 ∧ StdSort insertionSort) ∧
    ∀ l ∈ updateLightTimings binary64 insertionSort
        [TrafficLight.mk 0 10 0 (Dbl.fin 0), TrafficLight.mk 1 0 10 (Dbl.fin 0),
         TrafficLight.mk 2 0 0 (Dbl.fin 0), TrafficLight.mk 3 0 0 (Dbl.fin 0)],
      (∃ g : ℚ, l.green_time = Dbl.fin g ∧ 0 ≤ g ∧ g ≤ MAX_GREEN_TIME) ∧
      Dbl.le (Dbl.fin 0) l.green_time = true ∧
      Dbl.le l.green_time (Dbl.fin MAX_GREEN_TIME) = true :=
  ⟨⟨rounding_binary64, stdSort_insertionSort⟩,
   updateLightTimings_bounds binary64 rounding_binary64 insertionSort stdSort_insertionSort
    [TrafficLight.mk 0 10 0 (Dbl.fin 0), TrafficLight.mk 1 0 10 (Dbl.fin 0),
     TrafficLight.mk 2 0 0 (Dbl.fin 0), TrafficLight.mk 3 0 0 (Dbl.fin 0)]
    (by decide) (by decide) (by decide!)⟩

/-! ## Reset of the queues -/

/-- C12: for every node state, `resetQueues` sets `vehicle_queue` and
`pedestrian_queue` to 0 and leaves `green_time` and `id` unchanged, and calling it
twice gives the same state as calling it once. -/
theorem resetQueues_spec (self : TrafficLight) :
    self.resetQueues.vehicle_queue = 0 ∧ self.resetQueues.pedestrian_queue = 0 ∧
    self.resetQueues.green_time = self.green_time ∧ self.resetQueues.id = self.id ∧
    self.resetQueues = TrafficLight.mk self.id 0 0 self.green_time ∧
    self.resetQueues.resetQueues = self.resetQueues :=
  ⟨rfl, rfl, rfl, rfl, rfl, rfl⟩

/-! ## Accumulation of demand -/

theorem wrapInt_add_wrapInt (x y : Int) : wrapInt (wrapInt x + y) = wrapInt (x + y) := by
  unfold wrapInt
  omega

/-- C15: for every node state and all counts `a, b >= 0`, `receiveEvent(k, a)` followed
by `receiveEvent(k, b)` succeeds twice and gives the same state as the single call
`receiveEvent(k, a + b)`, for `k` = "vehicle" and for `k` = "pedestrian"; and a vehicle
event followed by a pedestrian event gives the same state as the two in the other
order. -/
theorem receiveEvent_cumulative (self : TrafficLight) (a b : Int) (ha : 0 ≤ a) (hb : 0 ≤ b) :
    (((self.receiveEvent "vehicle" a).2.receiveEvent "vehicle" b)
      = self.receiveEvent "vehicle" (a + b)) ∧
    (((self.receiveEvent "pedestrian" a).2.receiveEvent "pedestrian" b)
      = self.receiveEvent "pedestrian" (a + b)) ∧
    (self.receiveEvent "vehicle" a).1 = Except.ok () ∧
    (self.receiveEvent "pedestrian" a).1 = Except.ok () ∧
    (((self.receiveEvent "vehicle" a).2.receiveEvent "pedestrian" b)
      = ((self.receiveEvent "pedestrian" b).2.receiveEvent "vehicle" a)) := by
  have ha2 : ¬ a < 0 := not_lt.mpr ha
  have hb2 : ¬ b < 0 := not_lt.mpr hb
  have hab : ¬ a + b < 0 := not_lt.mpr (add_nonneg ha hb)
  have hne : ¬ ("pedestrian" = "vehicle") := by decide
  refine ⟨?_, ?_, ?_, ?_, ?_⟩
  · simp [receiveEvent, ha2, hb2, hab, wrapInt_add_wrapInt, add_assoc]
  · simp [receiveEvent, ha2, hb2, hab, wrapInt_add_wrapInt, add_assoc]
  · simp [receiveEvent, ha2]
  · simp [receiveEvent, ha2]
  · simp [receiveEvent, ha2, hb2]

/-- Witness of `receiveEvent_cumulative`: a node at (4, 9) receives 3 and then 5
vehicles. -/
theorem receiveEvent_cumulative_witness :
    ((TrafficLight.mk 1 4 9 (Dbl.fin 0)).receiveEvent "vehicle" 3).2.receiveEvent "vehicle" 5
      = (TrafficLight.mk 1 4 9 (Dbl.fin 0)).receiveEvent "vehicle" (3 + 5) :=
  (receiveEvent_cumulative (TrafficLight.mk 1 4 9 (Dbl.fin 0)) 3 5 (by decide) (by decide)).1

/-! ## Frame of the allocation -/

/-- C17: for every collection, whatever the sort does and whatever the rounding,
`updateLightTimings` returns a collection of the same length in which the node at
each position has the id, the `vehicle_queue` and the `pedestrian_queue`, hence the
priority, of the node at that position before; only `green_time` can differ. -/
theorem updateLightTimings_frame (fl : ℚ → ℚ) (sort : SortFn) (ls : List TrafficLight) :
    (updateLightTimings fl sort ls).length = ls.length ∧
    (updateLightTimings fl sort ls).map (fun l => (l.id, l.vehicle_queue, l.pedestrian_queue))
      = ls.map (fun l => (l.id, l.vehicle_queue, l.pedestrian_queue)) ∧
    (updateLightTimings fl sort ls).map (calculatePriority fl)
      = ls.map (calculatePriority fl) ∧
    (updateLightTimings fl sort ls).map (fun l => l.setGreenTime (Dbl.fin 0))
      = ls.map (fun l => l.setGreenTime (Dbl.fin 0)) := by
  unfold updateLightTimings
  refine ⟨?_, ?_, ?_, ?_⟩
  · simp
  · simp only [List.map_map]
    apply List.map_congr_left
    intro l _
    rfl
  · simp only [List.map_map]
    apply List.map_congr_left
    intro l _
    rfl
  · simp only [List.map_map]
    apply List.map_congr_left
    intro l _
    rfl

/-! ## The lookup by id -/

theorem currentPriority_eq_find (id : Int) (l : List Entry) :
    currentPriority id l
      = ((l.find? (fun e => decide (e.1 = id))).map Prod.snd).getD 0 := by
  induction l with
  | nil => rfl
  | cons e es ih =>
    unfold currentPriority
    by_cases h : e.1 = id
    · simp [h]
    · simp [h, ih]

/-- C16: for every collection of nodes, with distinct ids or not, every conforming
`std::sort` and every rounding, the lookup inside `updateLightTimings` finds, for
every node of the collection, an entry of the ranked list with the id of the node,
and the priority it uses is the priority of the first such entry, not the default
`0.0` of a missing match. -/
theorem currentPriority_found (fl : ℚ → ℚ) (sort : SortFn) (hs : StdSort sort)
    (ls : List TrafficLight) :
    ∀ light ∈ ls, ∃ e : Entry,
      (determinePriority fl sort ls).find? (fun e => decide (e.1 = light.getId)) = some e ∧
      e ∈ determinePriority fl sort ls ∧ e.1 = light.getId ∧
      currentPriority light.getId (determinePriority fl sort ls) = e.2 := by
  intro light hl
  have hp : (determinePriority fl sort ls).Perm (ls.map (sendEvent fl)) :=
    hs.perm byPriority (ls.map (sendEvent fl)) strictWeakOrdering_byPriority
  have hmem : light.sendEvent fl ∈ determinePriority fl sort ls :=
    hp.mem_iff.mpr (List.mem_map.mpr ⟨light, hl, rfl⟩)
  cases hf : (determinePriority fl sort ls).find? (fun e => decide (e.1 = light.getId)) with
  | none =>
    have := List.find?_eq_none.mp hf (light.sendEvent fl) hmem
    simp [sendEvent, getId] at this
  | some e =>
    refine ⟨e, rfl, List.mem_of_find?_eq_some hf, ?_, ?_⟩
    · simpa using List.find?_some hf
    · rw [currentPriority_eq_find, hf]
      rfl

/-- Witness of `currentPriority_found`: three nodes, two of them with the id 7. -/
theorem currentPriority_found_witness :
    StdSort insertionSort ∧
    ∃ e : Entry,
      (determinePriority binary64 insertionSort
        [TrafficLight.mk 7 1 0 (Dbl.fin 0), TrafficLight.mk 7 0 4 (Dbl.fin 0),
         TrafficLight.mk 2 3 3 (Dbl.fin 0)]).find?
          (fun e => decide (e.1 = (TrafficLight.mk 7 1 0 (Dbl.fin 0)).getId)) = some e ∧
      e ∈ determinePriority binary64 insertionSort
        [TrafficLight.mk 7 1 0 (Dbl.fin 0), TrafficLight.mk 7 0 4 (Dbl.fin 0),
         TrafficLight.mk 2 3 3 (Dbl.fin 0)] ∧
      e.1 = (TrafficLight.mk 7 1 0 (Dbl.fin 0)).getId ∧
      currentPriority (TrafficLight.mk 7 1 0 (Dbl.fin 0)).getId
        (determinePriority binary64 insertionSort
          [TrafficLight.mk 7 1 0 (Dbl.fin 0), TrafficLight.mk 7 0 4 (Dbl.fin 0),
           TrafficLight.mk 2 3 3 (Dbl.fin 0)]) = e.2 :=
  ⟨stdSort_insertionSort,
   currentPriority_found binary64 insertionSort stdSort_insertionSort
    [TrafficLight.mk 7 1 0 (Dbl.fin 0), TrafficLight.mk 7 0 4 (Dbl.fin 0),
     TrafficLight.mk 2 3 3 (Dbl.fin 0)] (TrafficLight.mk 7 1 0 (Dbl.fin 0)) (by decide)⟩

/-! ## Monotonicity and scaling of the allocation -/

theorem green_le_of_priority_le (fl : ℚ → ℚ) (hm : Monotone fl) (sort : SortFn)
    (hs : StdSort sort) (ls : List TrafficLight) (hid : (ls.map getId).Nodup)
    (hT : 0 < total_priority fl sort ls)
    (a b : TrafficLight) (ha : a ∈ ls) (hb : b ∈ ls)
    (hab : b.calculatePriority fl ≤ a.calculatePriority fl)
    (a2 b2 : TrafficLight) (ha2 : a2 ∈ updateLightTimings fl sort ls)
    (hb2 : b2 ∈ updateLightTimings fl sort ls) (hida : a2.id = a.id) (hidb : b2.id = b.id) :
    Dbl.le b2.green_time a2.green_time = true := by
  rw [updateLightTimings_eq_map fl sort hs ls hid (ne_of_gt hT)] at ha2 hb2
  obtain ⟨a0, ha0, rfl⟩ := List.mem_map.mp ha2
  obtain ⟨b0, hb0, rfl⟩ := List.mem_map.mp hb2
  have hinj := List.inj_on_of_nodup_map hid
  have ea : a0 = a := hinj ha0 ha hida
  have eb : b0 = b := hinj hb0 hb hidb
  subst ea
  subst eb
  have hM : (0 : ℚ) ≤ MAX_GREEN_TIME := by norm_num [MAX_GREEN_TIME]
  have hdiv : b0.calculatePriority fl / total_priority fl sort ls
      ≤ a0.calculatePriority fl / total_priority fl sort ls :=
    div_le_div_of_nonneg_right hab (le_of_lt hT)
  have hle : fl (fl (b0.calculatePriority fl / total_priority fl sort ls) * MAX_GREEN_TIME)
      ≤ fl (fl (a0.calculatePriority fl / total_priority fl sort ls) * MAX_GREEN_TIME) :=
    hm (mul_le_mul_of_nonneg_right (hm hdiv) hM)
  simp [setGreenTime, Dbl.le, hle]

/-- C18: for every collection with pairwise distinct ids and total priority > 0, and
every conforming `std::sort`: if the priority of node `a` is at least that of node `b`,
then after `updateLightTimings` the green time of the node with the id of `a` is at
least that of the node with the id of `b`; and for any two entries of the ranking
returned by `determinePriority`, the node of the earlier entry has a green time at
least that of the node of the later entry.  The priorities are those the program
computes and the total is its variable `total_priority`; this holds for every
monotone rounding, of which the binary64 rounding of the program is one. -/
theorem updateLightTimings_monotone (fl : ℚ → ℚ) (hm : Monotone fl) (sort : SortFn)
    (hs : StdSort sort) (ls : List TrafficLight) (hid : (ls.map getId).Nodup)
    (hT : 0 < total_priority fl sort ls) :
    (∀ a ∈ ls, ∀ b ∈ ls, b.calculatePriority fl ≤ a.calculatePriority fl →
      ∀ a2 ∈ updateLightTimings fl sort ls, ∀ b2 ∈ updateLightTimings fl sort ls,
        a2.id = a.id → b2.id = b.id → Dbl.le b2.green_time a2.green_time = true) ∧
    (determinePriority fl sort ls).Pairwise (fun e1 e2 =>
      ∀ a2 ∈ updateLightTimings fl sort ls, ∀ b2 ∈ updateLightTimings fl sort ls,
        a2.id = e1.1 → b2.id = e2.1 → Dbl.le b2.green_time a2.green_time = true) := by
  refine ⟨?_, ?_⟩
  · intro a ha b hb hab a2 ha2 b2 hb2 hida hidb
    exact green_le_of_priority_le fl hm sort hs ls hid hT a b ha hb hab a2 b2 ha2 hb2
      hida hidb
  · have hp : (determinePriority fl sort ls).Perm (ls.map (sendEvent fl)) :=
      hs.perm byPriority (ls.map (sendEvent fl)) strictWeakOrdering_byPriority
    have hsorted : (determinePriority fl sort ls).Pairwise (fun a b => b.2 ≤ a.2) :=
      (hs.sorted byPriority (ls.map (sendEvent fl)) strictWeakOrdering_byPriority).imp
        (fun h => byPriority_eq_false.mp h)
    refine hsorted.imp_of_mem ?_
    intro e1 e2 he1 he2 h12 a2 ha2 b2 hb2 hida hidb
    obtain ⟨a, ha, rfl⟩ := List.mem_map.mp (hp.mem_iff.mp he1)
    obtain ⟨b, hb, rfl⟩ := List.mem_map.mp (hp.mem_iff.mp he2)
    exact green_le_of_priority_le fl hm sort hs ls hid hT a b ha hb h12 a2 b2 ha2 hb2
      hida hidb

/-- Witness of `updateLightTimings_monotone`, in the binary64 arithmetic of the
program: nodes 0 and 1 with demand (3,0) and (0,7).  Their priorities are
2.0999999999999996 and 2.1, so node 1 has the higher one, and it gets
30.000000000000007 while node 0 gets 30. -/
theorem updateLightTimings_monotone_witness :
    (Monotone binary64 ∧ StdSort insertionSort) ∧
    List.map (calculatePriority binary64)
      [TrafficLight.mk 0 3 0 (Dbl.fin 0), TrafficLight.mk 1 0 7 (Dbl.fin 0)]
      = [4728779608739020 / 2 ^ 51, 4728779608739021 / 2 ^ 51] ∧
    updateLightTimings binary64 insertionSort
      [TrafficLight.mk 0 3 0 (Dbl.fin 0), TrafficLight.mk 1 0 7 (Dbl.fin 0)]
      = [TrafficLight.mk 0 3 0 (Dbl.fin 30),
         TrafficLight.mk 1 0 7 (Dbl.fin (4222124650659841 / 2 ^ 47))] ∧
    Dbl.le (TrafficLight.mk 0 3 0 (Dbl.fin 30)).green_time
      (TrafficLight.mk 1 0 7 (Dbl.fin (4222124650659841 / 2 ^ 47))).green_time = true := by
  have hid : (List.map getId
      [TrafficLight.mk 0 3 0 (Dbl.fin 0), TrafficLight.mk 1 0 7 (Dbl.fin 0)]).Nodup := by
    decide
  have hT : 0 < total_priority binary64 insertionSort
      [TrafficLight.mk 0 3 0 (Dbl.fin 0), TrafficLight.mk 1 0 7 (Dbl.fin 0)] := by
    decide!
  have hu : updateLightTimings binary64 insertionSort
      [TrafficLight.mk 0 3 0 (Dbl.fin 0), TrafficLight.mk 1 0 7 (Dbl.fin 0)]
      = [TrafficLight.mk 0 3 0 (Dbl.fin 30),
         TrafficLight.mk 1 0 7 (Dbl.fin (4222124650659841 / 2 ^ 47))] := by
    decide!
  refine ⟨⟨binary64_mono, stdSort_insertionSort⟩, by decide!, hu, ?_⟩
  exact (updateLightTimings_monotone binary64 binary64_mono insertionSort
      stdSort_insertionSort _ hid hT).1
    (TrafficLight.mk 1 0 7 (Dbl.fin 0)) (by decide)
    (TrafficLight.mk 0 3 0 (Dbl.fin 0)) (by decide)
    (by decide!)
    (TrafficLight.mk 1 0 7 (Dbl.fin (4222124650659841 / 2 ^ 47))) (by rw [hu]; decide!)
    (TrafficLight.mk 0 3 0 (Dbl.fin 30)) (by rw [hu]; decide!)
    rfl rfl

theorem calculatePriority_scaleDemand (k : Int) (l : TrafficLight) :
    (scaleDemand k l).calculatePriority exactArith
      = (k : ℚ) * l.calculatePriority exactArith := by
  simp only [calculatePriority_exactArith, scaleDemand, Int.cast_mul]
  ring

theorem totalPriority_scaleDemand (k : Int) (ls : List TrafficLight) :
    totalPriority exactArith (ls.map (scaleDemand k))
      = (k : ℚ) * totalPriority exactArith ls := by
  unfold totalPriority
  rw [List.map_map, ← List.sum_map_mul_left]
  congr 1
  apply List.map_congr_left
  intro l _
  exact calculatePriority_scaleDemand k l

/-- C19: for every collection with pairwise distinct ids and total priority > 0, every
conforming `std::sort` and every integer `k >= 1`, multiplying the `vehicle_queue` and
the `pedestrian_queue` of every node by `k` leaves the green time that
`updateLightTimings` computes for each node unchanged, with the arithmetic read
exactly. -/
theorem updateLightTimings_scale_invariant (sort : SortFn) (hs : StdSort sort)
    (ls : List TrafficLight) (hid : (ls.map getId).Nodup)
    (hT : 0 < totalPriority exactArith ls) (k : Int) (hk : 1 ≤ k) :
    (updateLightTimings exactArith sort (ls.map (scaleDemand k))).map TrafficLight.green_time
      = (updateLightTimings exactArith sort ls).map TrafficLight.green_time := by
  have hk0 : (0 : ℚ) < (k : ℚ) := by exact_mod_cast (lt_of_lt_of_le zero_lt_one hk)
  have hid2 : ((ls.map (scaleDemand k)).map getId).Nodup := by
    rw [List.map_map]
    exact hid
  have hT1 : total_priority exactArith sort ls ≠ 0 := by
    rw [total_priority_eq sort hs ls]
    exact ne_of_gt hT
  have hT2 : total_priority exactArith sort (ls.map (scaleDemand k)) ≠ 0 := by
    rw [total_priority_eq sort hs _, totalPriority_scaleDemand]
    exact ne_of_gt (mul_pos hk0 hT)
  rw [updateLightTimings_eq_map exactArith sort hs _ hid2 hT2,
    updateLightTimings_eq_map exactArith sort hs ls hid hT1,
    total_priority_eq sort hs _, total_priority_eq sort hs ls]
  simp only [List.map_map]
  apply List.map_congr_left
  intro l _
  simp only [Function.comp, setGreenTime, calculatePriority_scaleDemand,
    totalPriority_scaleDemand, exactArith]
  rw [mul_div_mul_left _ _ (ne_of_gt hk0)]

/-- Witness of `updateLightTimings_scale_invariant`: demand (2,2), (1,1) and three times
as much, (6,6), (3,3): in the exact reading the green times are the same both times. -/
theorem updateLightTimings_scale_invariant_witness :
    List.map (scaleDemand 3)
      [TrafficLight.mk 0 2 2 (Dbl.fin 0), TrafficLight.mk 1 1 1 (Dbl.fin 0)]
      = [TrafficLight.mk 0 6 6 (Dbl.fin 0), TrafficLight.mk 1 3 3 (Dbl.fin 0)] ∧
    (updateLightTimings exactArith insertionSort
      (List.map (scaleDemand 3)
        [TrafficLight.mk 0 2 2 (Dbl.fin 0), TrafficLight.mk 1 1 1 (Dbl.fin 0)])).map
        TrafficLight.green_time
      = (updateLightTimings exactArith insertionSort
          [TrafficLight.mk 0 2 2 (Dbl.fin 0), TrafficLight.mk 1 1 1 (Dbl.fin 0)]).map
          TrafficLight.green_time :=
  ⟨by decide,
   updateLightTimings_scale_invariant insertionSort stdSort_insertionSort
    [TrafficLight.mk 0 2 2 (Dbl.fin 0), TrafficLight.mk 1 1 1 (Dbl.fin 0)] (by decide)
    (by decide!) 3 (by decide)⟩

/-! ## Invariant of the counters -/

theorem atIndex_forall (P : TrafficLight → Prop) (f : TrafficLight → TrafficLight)
    (idx : Nat) (ls : List TrafficLight) (hP : ∀ l ∈ ls, P l)
    (hf : ∀ l, ls[idx]? = some l → P (f l)) : ∀ l ∈ atIndex f idx ls, P l := by
  induction ls generalizing idx with
  | nil =>
    intro l hl
    simp [atIndex] at hl
  | cons x xs ih =>
    cases idx with
    | zero =>
      intro l hl
      simp only [atIndex, List.mem_cons] at hl
      rcases hl with rfl | hl
      · exact hf x (by simp)
      · exact hP l (List.mem_cons_of_mem x hl)
    | succ n =>
      intro l hl
      simp only [atIndex, List.mem_cons] at hl
      rcases hl with rfl | hl
      · exact hP l (List.mem_cons_self l xs)
      · refine ih n (fun l2 hl2 => hP l2 (List.mem_cons_of_mem x hl2)) ?_ l hl
        intro l2 hl2
        exact hf l2 (by simpa using hl2)

theorem receiveEvent_nonneg (l : TrafficLight) (type : String) (count : Int)
    (hl : 0 ≤ l.vehicle_queue ∧ 0 ≤ l.pedestrian_queue)
    (hv : type = "vehicle" → l.vehicle_queue + count ≤ INT_MAX)
    (hp : type = "pedestrian" → l.pedestrian_queue + count ≤ INT_MAX) :
    0 ≤ (l.receiveEvent type count).2.vehicle_queue ∧
    0 ≤ (l.receiveEvent type count).2.pedestrian_queue := by
  unfold receiveEvent
  by_cases hc : count < 0
  · simp [hc, hl]
  · have hc0 : 0 ≤ count := not_lt.mp hc
    by_cases h1 : type = "vehicle"
    · have hr : wrapInt (l.vehicle_queue + count) = l.vehicle_queue + count :=
        wrapInt_of_isInt ⟨by unfold INT_MIN; omega, hv h1⟩
      simp only [hc, h1, if_true, if_false, hr]
      exact ⟨by omega, hl.2⟩
    · by_cases h2 : type = "pedestrian"
      · have hr : wrapInt (l.pedestrian_queue + count) = l.pedestrian_queue + count :=
          wrapInt_of_isInt ⟨by unfold INT_MIN; omega, hp h2⟩
        have hne : ¬ ("pedestrian" = "vehicle") := by decide
        simp only [hc, h2, hne, if_true, if_false, hr]
        exact ⟨hl.1, by omega⟩
      · simp [hc, h1, h2, hl]

theorem applyOp_nonneg (fl : ℚ → ℚ) (sort : SortFn) (ls : List TrafficLight) (op : Op)
    (hinv : ∀ l ∈ ls, 0 ≤ l.vehicle_queue ∧ 0 ≤ l.pedestrian_queue)
    (hop : op.inRange ls) :
    ∀ l ∈ applyOp fl sort ls op, 0 ≤ l.vehicle_queue ∧ 0 ≤ l.pedestrian_queue := by
  cases op with
  | receive idx type count =>
    apply atIndex_forall _ _ idx ls hinv
    intro l hl
    have hm : l ∈ ls := List.getElem?_mem hl
    exact receiveEvent_nonneg l type count (hinv l hm) (hop l hl).1 (hop l hl).2
  | reset idx =>
    apply atIndex_forall _ _ idx ls hinv
    intro l _
    exact ⟨le_refl _, le_refl _⟩
  | update =>
    intro l hl
    unfold applyOp updateLightTimings at hl
    obtain ⟨l0, hl0, rfl⟩ := List.mem_map.mp hl
    exact hinv l0 hl0

theorem runOps_nonneg (fl : ℚ → ℚ) (sort : SortFn) (ops : List Op) (ls : List TrafficLight)
    (hinv : ∀ l ∈ ls, 0 ≤ l.vehicle_queue ∧ 0 ≤ l.pedestrian_queue)
    (hops : opsInRange fl sort ls ops) :
    ∀ l ∈ runOps fl sort ls ops, 0 ≤ l.vehicle_queue ∧ 0 ≤ l.pedestrian_queue := by
  induction ops generalizing ls with
  | nil => exact hinv
  | cons op ops ih =>
    exact ih (applyOp fl sort ls op) (applyOp_nonneg fl sort ls op hinv hops.1) hops.2

/-- C13, as stated, fails: a node fresh from the constructor receives `INT_MAX`
vehicles and then one more, both counts being valid non-negative `int` values; both
calls succeed and `vehicle_queue` ends at `INT_MIN`, which is negative. -/
theorem counters_negative_counterexample :
    isInt 2147483647 ∧ isInt 1 ∧
    runOps binary64 insertionSort [TrafficLight.mk0 0]
      [Op.receive 0 "vehicle" 2147483647, Op.receive 0 "vehicle" 1]
      = [TrafficLight.mk 0 (-2147483648) 0 (Dbl.fin 0)] ∧
    ¬ (0 ≤ (TrafficLight.mk 0 (-2147483648) 0 (Dbl.fin 0)).vehicle_queue) := by
  decide

/-- C13, amended: in every collection reached from nodes fresh from the constructor by
any sequence of `receiveEvent` calls (successful or failing, any kind, any count),
`resetQueues` calls and `updateLightTimings` calls in which no `receiveEvent` takes a
counter beyond `INT_MAX`, every node has `vehicle_queue >= 0` and
`pedestrian_queue >= 0`. -/
theorem counters_nonneg_of_inRange (fl : ℚ → ℚ) (sort : SortFn) (ids : List Int)
    (ops : List Op) (hops : opsInRange fl sort (ids.map TrafficLight.mk0) ops) :
    ∀ l ∈ runOps fl sort (ids.map TrafficLight.mk0) ops,
      0 ≤ l.vehicle_queue ∧ 0 ≤ l.pedestrian_queue := by
  apply runOps_nonneg fl sort ops _ _ hops
  intro l hl
  obtain ⟨i, _, rfl⟩ := List.mem_map.mp hl
  exact ⟨le_refl _, le_refl _⟩

theorem opsInRange_example :
    opsInRange binary64 insertionSort (List.map TrafficLight.mk0 [0, 1])
      [Op.receive 0 "vehicle" 5, Op.receive 0 "vehicle" (-4), Op.receive 1 "bicycle" 3,
       Op.receive 1 "pedestrian" 2, Op.update, Op.reset 0] := by
  refine ⟨?_, ?_, ?_, ?_, trivial, trivial, trivial⟩
  · intro l hl
    simp [mk0] at hl
    subst hl
    decide
  · intro l hl
    simp [applyOp, atIndex, receiveEvent, mk0] at hl
    subst hl
    decide
  · intro l hl
    simp [applyOp, atIndex, receiveEvent, mk0] at hl
    subst hl
    decide
  · intro l hl
    simp [applyOp, atIndex, receiveEvent, mk0] at hl
    subst hl
    decide

/-- Witness of `counters_nonneg_of_inRange`: nodes 0 and 1 receive 5 vehicles, a
negative count, an unknown kind and 2 pedestrians, then the allocation runs and node 0
is reset; no call leaves the `int` range and all counters end non-negative. -/
theorem counters_nonneg_of_inRange_witness :
    opsInRange binary64 insertionSort (List.map TrafficLight.mk0 [0, 1])
      [Op.receive 0 "vehicle" 5, Op.receive 0 "vehicle" (-4), Op.receive 1 "bicycle" 3,
       Op.receive 1 "pedestrian" 2, Op.update, Op.reset 0] ∧
    (runOps binary64 insertionSort (List.map TrafficLight.mk0 [0, 1])
      [Op.receive 0 "vehicle" 5, Op.receive 0 "vehicle" (-4), Op.receive 1 "bicycle" 3,
       Op.receive 1 "pedestrian" 2, Op.update, Op.reset 0]).all
      (fun l => decide (0 ≤ l.vehicle_queue ∧ 0 ≤ l.pedestrian_queue)) = true :=
  ⟨opsInRange_example,
   List.all_eq_true.mpr fun l hl =>
    decide_eq_true
      (counters_nonneg_of_inRange binary64 insertionSort [0, 1]
        [Op.receive 0 "vehicle" 5, Op.receive 0 "vehicle" (-4), Op.receive 1 "bicycle" 3,
       Op.receive 1 "pedestrian" 2, Op.update, Op.reset 0]
        opsInRange_example l hl)⟩

/-! ## The loop of `main` on a cycle without demand -/

theorem receiveAndBroadcastEvents_zero_draws :
    receiveAndBroadcastEvents (fun _ => 0) mainInit = Except.ok mainInit := by
  rfl

theorem mainInit_idle (fl : ℚ → ℚ) (h0 : fl 0 = 0) :
    ∀ l ∈ mainInit, l.calculatePriority fl = 0 := by
  intro l hl
  simp [mainInit, List.range, List.range.loop, mk0] at hl
  rcases hl with rfl | rfl | rfl | rfl <;> simp [calculatePriority, h0]

theorem mainAllocate_zero_draws (fl : ℚ → ℚ) (h0 : fl 0 = 0) :
    mainAllocate fl insertionSort (fun _ => 0) mainInit
      = Except.ok [TrafficLight.mk 0 0 0 Dbl.nan, TrafficLight.mk 1 0 0 Dbl.nan,
          TrafficLight.mk 2 0 0 Dbl.nan, TrafficLight.mk 3 0 0 Dbl.nan] := by
  unfold mainAllocate
  rw [receiveAndBroadcastEvents_zero_draws]
  simp only []
  rw [updateLightTimings_all_idle fl h0 insertionSort stdSort_insertionSort _
    (mainInit_idle fl h0)]
  simp [mainInit, List.range, List.range.loop, mk0, setGreenTime]

/-- C14, behaviour of the code: from the collection built in `main`, a pass of the loop
in which every draw of the generator is 0 (all `receiveEvent` calls succeed) leaves NaN
as the green time of all four nodes, at the point where the statuses are logged and
after the reset of the queues; NaN is neither `>= 0` nor `<= MAX_GREEN_TIME`. -/
theorem mainIteration_zero_draws_nan :
    mainAllocate binary64 insertionSort (fun _ => 0) mainInit
      = Except.ok [TrafficLight.mk 0 0 0 Dbl.nan, TrafficLight.mk 1 0 0 Dbl.nan,
          TrafficLight.mk 2 0 0 Dbl.nan, TrafficLight.mk 3 0 0 Dbl.nan] ∧
    mainIteration binary64 insertionSort (fun _ => 0) mainInit
      = Except.ok [TrafficLight.mk 0 0 0 Dbl.nan, TrafficLight.mk 1 0 0 Dbl.nan,
          TrafficLight.mk 2 0 0 Dbl.nan, TrafficLight.mk 3 0 0 Dbl.nan] ∧
    Dbl.le (Dbl.fin 0) Dbl.nan = false ∧ Dbl.le Dbl.nan (Dbl.fin MAX_GREEN_TIME) = false := by
  have ha := mainAllocate_zero_draws binary64 binary64_zero
  refine ⟨ha, ?_, rfl, rfl⟩
  unfold mainIteration
  rw [ha]
  simp [resetQueues]

/-! ## Order of tied entries -/

end TrafficLightModel
